import Mathlib

/-!
Verification of the valhalla-fjorge position reconciliation core: a shallow
embedding in Lean 4 of the data model (`src/valhalla/models.py`), the position
matcher (`src/valhalla/matcher.py`), the incremental merge engine
(`src/valhalla/merge.py`) and the PnL calculator (`src/valhalla/meteora.py`).

Modelling conventions:
* Python `Decimal` and `float` values are modelled as exact rationals (`ℚ`);
  every concrete constant appearing in the claims is exactly representable.
* Python dicts keyed by `position_id` are modelled as association lists with
  last-binding-wins lookup (`dictLast`), matching dict assignment semantics.
* Optional fields (`Optional[Decimal]`, fields whose absence means
  "not yet known") are `Option ℚ` etc.
* `None`-returning fallible code is `Option`-valued.
-/

namespace Valhalla

/-- Digits of a decimal numeral to a natural number (Python `int(...)` on a
digit string). -/
def digitsToNat (l : List Char) : Nat :=
  l.foldl (fun n c => 10 * n + (c.toNat - 48)) 0

/-- `models.normalize_token_age`: parse strings like "5h ago", "3d ago",
"2w ago", "3mo ago", "1yr ago" (after `strip()`), anchored at the start as
`re.match(r'(\d+)(h|d|w|mo|yr)\s*ago', ...)` is, returning
`(age_days, age_hours)`; `(none, none)` when unparseable. -/
def normalizeTokenAge (s : String) : Option Int × Option Int :=
  if s = "" then (none, none) else
  let cs := s.trim.toList
  let digits := cs.takeWhile Char.isDigit
  if digits = [] then (none, none) else
  let value : Nat := digitsToNat digits
  let rest := cs.drop digits.length
  let finish (afterUnit : List Char) (pair : Option Int × Option Int) :
      Option Int × Option Int :=
    if (afterUnit.dropWhile Char.isWhitespace).take 3 = ['a', 'g', 'o'] then pair
    else (none, none)
  match rest with
  | 'h' :: r => finish r (some (if value < 24 then 0 else (value / 24 : Nat)), some value)
  | 'd' :: r => finish r (some value, some (value * 24))
  | 'w' :: r => finish r (some (value * 7), some (value * 7 * 24))
  | 'm' :: 'o' :: r => finish r (some (value * 30), some (value * 30 * 24))
  | 'y' :: 'r' :: r => finish r (some (value * 365), some (value * 365 * 24))
  | _ => (none, none)

/-- Scan for the first occurrence of `[HH:MM]` (four digits) in a character
list, as `re.search(r'\[(\d{2}):(\d{2})\]', ...)` does; returns the hour and
minute strings. -/
def findTimeMatch : List Char → Option (String × String)
  | '[' :: a :: b :: ':' :: d :: e :: ']' :: rest =>
    if a.isDigit && b.isDigit && d.isDigit && e.isDigit then
      some (String.mk [a, b], String.mk [d, e])
    else findTimeMatch (a :: b :: ':' :: d :: e :: ']' :: rest)
  | _ :: rest => findTimeMatch rest
  | [] => none

/-- `models.make_iso_datetime`: combine a `"YYYY-MM-DD"` date (possibly empty)
and a `"[HH:MM]"` timestamp into `"YYYY-MM-DDTHH:MM:00"` (or `"THH:MM:00"`
with no date); empty string when the time pattern is absent. -/
def makeIsoDatetime (dateStr timeStr : String) : String :=
  match findTimeMatch timeStr.toList with
  | none => ""
  | some (h, m) =>
    let timePart := h ++ ":" ++ m ++ ":00"
    if dateStr ≠ "" then dateStr ++ "T" ++ timePart else "T" ++ timePart

/-- Python `str.strip('[]')`: drop leading and trailing `[` / `]` characters. -/
def stripSquare (s : String) : String :=
  let isB := fun c => c = '[' ∨ c = ']'
  String.mk (((s.toList.dropWhile isB).reverse.dropWhile isB).reverse)

/-- Characters of a string before the first `'T'` (Python
`s.split('T')[0]`). -/
def beforeT (s : String) : String :=
  String.mk (s.toList.takeWhile (fun c => c ≠ 'T'))

/-! ## Event and position records (`src/valhalla/models.py`)

`MatchedPosition` below carries `timestamp_open`/`timestamp_close` fields: the
modular `models.py` dataclass omits them while `matcher.py` and `merge.py`
construct and read them (the v2 dataclass, `valhalla_parser_v2.py:378`,
declares them); they are required to type every construction site. -/

structure OpenEvent where
  timestamp : String
  position_type : String
  token_name : String
  token_pair : String
  target : String
  market_cap : ℚ
  token_age : String
  jup_score : Int
  target_sol : ℚ
  your_sol : ℚ
  position_id : String
  tx_signatures : List String := []
  date : String := ""
  deriving DecidableEq, Repr

structure CloseEvent where
  timestamp : String
  target : String
  starting_sol : ℚ
  starting_usd : ℚ
  ending_sol : ℚ
  ending_usd : ℚ
  position_id : String
  tx_signatures : List String := []
  total_sol : ℚ := 0
  active_positions : Int := 0
  date : String := ""
  deriving DecidableEq, Repr

structure RugEvent where
  timestamp : String
  target : String
  token_pair : String
  position_address : String
  price_drop : ℚ
  threshold : ℚ
  position_id : Option String := none
  date : String := ""
  deriving DecidableEq, Repr

structure FailsafeEvent where
  timestamp : String
  position_id : String
  date : String := ""
  deriving DecidableEq, Repr

structure AddLiquidityEvent where
  timestamp : String
  position_id : String
  target : String
  amount_sol : ℚ
  date : String := ""
  deriving DecidableEq, Repr

structure MeteoraPnlResult where
  deposited_sol : ℚ
  withdrawn_sol : ℚ
  fees_sol : ℚ
  deposited_usd : ℚ
  withdrawn_usd : ℚ
  fees_usd : ℚ
  pnl_usd : ℚ
  pnl_sol : ℚ
  deriving DecidableEq, Repr

structure MatchedPosition where
  timestamp_open : String := ""
  timestamp_close : String := ""
  target_wallet : String
  token : String
  position_type : String
  sol_deployed : Option ℚ
  sol_received : Option ℚ
  pnl_sol : Option ℚ
  pnl_pct : Option ℚ
  close_reason : String
  mc_at_open : ℚ
  jup_score : Int
  token_age : String
  token_age_days : Option Int := none
  token_age_hours : Option Int := none
  price_drop_pct : Option ℚ := none
  position_id : String := ""
  full_address : String := ""
  pnl_source : String := "pending"
  meteora_deposited : Option ℚ := none
  meteora_withdrawn : Option ℚ := none
  meteora_fees : Option ℚ := none
  meteora_pnl : Option ℚ := none
  datetime_open : String := ""
  datetime_close : String := ""
  deriving DecidableEq, Repr

/-! ## Dictionaries as association lists

A Python dict built by successive assignment keeps, for each key, the last
value assigned; `dictLast` looks an element up by key with exactly that
last-binding-wins rule. -/

/-- Last-binding-wins lookup by a string key. -/
def dictLast {α : Type} (key : α → String) : List α → String → Option α
  | [], _ => none
  | x :: rest, k =>
    match dictLast key rest k with
    | some y => some y
    | none => if key x = k then some x else none

/-- Deduplicate by key, keeping for each key its last element (the content of
the Python dict the list would build). -/
def dedupBy {α : Type} (key : α → String) : List α → List α
  | [] => []
  | x :: rest =>
    if rest.any (fun y => key y = key x) then dedupBy key rest
    else x :: dedupBy key rest

/-- Dict lookup on a list of key-value pairs. -/
def lookupStr {α : Type} (l : List (String × α)) (k : String) : Option α :=
  (dictLast Prod.fst l k).map Prod.snd

/-- Lookup of a `MatchedPosition` by `position_id`. -/
def mrGet (l : List MatchedPosition) (k : String) : Option MatchedPosition :=
  dictLast (fun p => p.position_id) l k

/-- Lookup of an `OpenEvent` by `position_id`. -/
def oeGet (l : List OpenEvent) (k : String) : Option OpenEvent :=
  dictLast (fun e => e.position_id) l k

/-- Prefer the first option when it is `some`. -/
def orO {α : Type} (a b : Option α) : Option α :=
  match a with
  | some x => some x
  | none => b

/-! ## Position matcher (`src/valhalla/matcher.py`)

`match_positions` joins Open events to their terminating Close/Rug events by
`position_id`. Close events are processed first (duplicate Close events for an
id are skipped), then Rug events. Every percentage the matcher divides for is
guarded by `if divisor > 0 ... else Decimal('0')`; `pctGuarded` is that guarded
expression and `pctChecked` its exception-aware reading (Python `Decimal`
division raises on a zero divisor). -/

/-- Checked `Decimal` division: `none` models a raised `DivisionByZero`. -/
def ddiv (a b : ℚ) : Option ℚ :=
  if b = 0 then none else some (a / b)

/-- The matcher's guarded percentage,
`(pnl / d * Decimal('100')) if d > 0 else Decimal('0')`. -/
def pctGuarded (pnl d : ℚ) : ℚ :=
  if 0 < d then pnl / d * 100 else 0

/-- The guarded percentage with the division checked (raising) rather than
total. -/
def pctChecked (pnl d : ℚ) : Option ℚ :=
  if 0 < d then (ddiv pnl d).map (· * 100) else some 0

/-- The SOL deployed into a position: the Open event's `your_sol` plus every
AddLiquidity amount for the same `position_id` (matcher.py:60-64). -/
def deployedOf (liqs : List AddLiquidityEvent) (o : OpenEvent) (pid : String) : ℚ :=
  o.your_sol + ((liqs.filter (fun l => l.position_id = pid)).map (fun l => l.amount_sol)).sum

/-- The position emitted for a Close event (matcher.py:58-249): three-way on
Meteora data / Discord fallback / pending, with an inner case on whether an
Open event was indexed for the id. -/
def closePositionOf (openById : List (String × OpenEvent)) (failsafeIds : List String)
    (liqs : List AddLiquidityEvent) (met : List (String × MeteoraPnlResult))
    (resolved : List (String × String)) (useDiscord : Bool) (c : CloseEvent) :
    MatchedPosition :=
  let pid := c.position_id
  let full_addr := (lookupStr resolved pid).getD ""
  match lookupStr openById pid with
  | some o =>
    let sol_deployed := deployedOf liqs o pid
    let sol_received := c.ending_sol - c.starting_sol
    let pnl_sol := sol_received - sol_deployed
    let pnl_pct := pctGuarded pnl_sol sol_deployed
    let close_reason := if pid ∈ failsafeIds then "failsafe" else "normal"
    match lookupStr met pid with
    | some m =>
      { timestamp_open := o.timestamp, timestamp_close := c.timestamp,
        target_wallet := c.target, token := o.token_name,
        position_type := o.position_type,
        sol_deployed := some m.deposited_sol, sol_received := some m.withdrawn_sol,
        pnl_sol := some m.pnl_sol,
        pnl_pct := some (pctGuarded m.pnl_sol m.deposited_sol),
        close_reason := close_reason, mc_at_open := o.market_cap,
        jup_score := o.jup_score, token_age := o.token_age,
        token_age_days := (normalizeTokenAge o.token_age).1,
        token_age_hours := (normalizeTokenAge o.token_age).2,
        price_drop_pct := none, position_id := pid, full_address := full_addr,
        pnl_source := "meteora",
        meteora_deposited := some m.deposited_sol,
        meteora_withdrawn := some m.withdrawn_sol,
        meteora_fees := some m.fees_sol, meteora_pnl := some m.pnl_sol,
        datetime_open := makeIsoDatetime o.date o.timestamp,
        datetime_close := makeIsoDatetime c.date c.timestamp }
    | none =>
      if useDiscord then
        { timestamp_open := o.timestamp, timestamp_close := c.timestamp,
          target_wallet := c.target, token := o.token_name,
          position_type := o.position_type,
          sol_deployed := some sol_deployed, sol_received := some sol_received,
          pnl_sol := some pnl_sol, pnl_pct := some pnl_pct,
          close_reason := close_reason, mc_at_open := o.market_cap,
          jup_score := o.jup_score, token_age := o.token_age,
          token_age_days := (normalizeTokenAge o.token_age).1,
          token_age_hours := (normalizeTokenAge o.token_age).2,
          price_drop_pct := none, position_id := pid, full_address := full_addr,
          pnl_source := "discord",
          datetime_open := makeIsoDatetime o.date o.timestamp,
          datetime_close := makeIsoDatetime c.date c.timestamp }
      else
        { timestamp_open := o.timestamp, timestamp_close := c.timestamp,
          target_wallet := c.target, token := o.token_name,
          position_type := o.position_type,
          sol_deployed := none, sol_received := none,
          pnl_sol := none, pnl_pct := none,
          close_reason := close_reason, mc_at_open := o.market_cap,
          jup_score := o.jup_score, token_age := o.token_age,
          token_age_days := (normalizeTokenAge o.token_age).1,
          token_age_hours := (normalizeTokenAge o.token_age).2,
          price_drop_pct := none, position_id := pid, full_address := full_addr,
          pnl_source := "pending",
          datetime_open := makeIsoDatetime o.date o.timestamp,
          datetime_close := makeIsoDatetime c.date c.timestamp }
  | none =>
    match lookupStr met pid with
    | some m =>
      { timestamp_open := "", timestamp_close := c.timestamp,
        target_wallet := c.target, token := "unknown", position_type := "unknown",
        sol_deployed := some m.deposited_sol, sol_received := some m.withdrawn_sol,
        pnl_sol := some m.pnl_sol,
        pnl_pct := some (pctGuarded m.pnl_sol m.deposited_sol),
        close_reason := "unknown_open", mc_at_open := 0, jup_score := 0,
        token_age := "", token_age_days := none, token_age_hours := none,
        price_drop_pct := none, position_id := pid, full_address := full_addr,
        pnl_source := "meteora",
        meteora_deposited := some m.deposited_sol,
        meteora_withdrawn := some m.withdrawn_sol,
        meteora_fees := some m.fees_sol, meteora_pnl := some m.pnl_sol,
        datetime_open := "",
        datetime_close := makeIsoDatetime c.date c.timestamp }
    | none =>
      if useDiscord then
        let sol_received := c.ending_sol - c.starting_sol
        { timestamp_open := "", timestamp_close := c.timestamp,
          target_wallet := c.target, token := "unknown", position_type := "unknown",
          sol_deployed := some 0, sol_received := some sol_received,
          pnl_sol := some sol_received, pnl_pct := some 0,
          close_reason := "unknown_open", mc_at_open := 0, jup_score := 0,
          token_age := "", token_age_days := none, token_age_hours := none,
          price_drop_pct := none, position_id := pid, full_address := full_addr,
          pnl_source := "discord",
          datetime_open := "",
          datetime_close := makeIsoDatetime c.date c.timestamp }
      else
        { timestamp_open := "", timestamp_close := c.timestamp,
          target_wallet := c.target, token := "unknown", position_type := "unknown",
          sol_deployed := none, sol_received := none,
          pnl_sol := none, pnl_pct := none,
          close_reason := "unknown_open", mc_at_open := 0, jup_score := 0,
          token_age := "", token_age_days := none, token_age_hours := none,
          price_drop_pct := none, position_id := pid, full_address := full_addr,
          pnl_source := "pending",
          datetime_open := "",
          datetime_close := makeIsoDatetime c.date c.timestamp }

/-- The position emitted for a Rug event carrying a non-empty `position_id`
(matcher.py:261-444); `resolved` is the resolved-address dict after the rug's
own address, when present, was added. -/
def rugPositionOf (openById : List (String × OpenEvent))
    (liqs : List AddLiquidityEvent) (met : List (String × MeteoraPnlResult))
    (resolved : List (String × String)) (useDiscord : Bool) (r : RugEvent)
    (pid : String) : MatchedPosition :=
  let full_addr := (lookupStr resolved pid).getD ""
  match lookupStr openById pid with
  | some o =>
    let sol_deployed := deployedOf liqs o pid
    match lookupStr met pid with
    | some m =>
      { timestamp_open := o.timestamp, timestamp_close := r.timestamp,
        target_wallet := r.target, token := o.token_name,
        position_type := o.position_type,
        sol_deployed := some m.deposited_sol, sol_received := some m.withdrawn_sol,
        pnl_sol := some m.pnl_sol,
        pnl_pct := some (pctGuarded m.pnl_sol m.deposited_sol),
        close_reason := "rug", mc_at_open := o.market_cap,
        jup_score := o.jup_score, token_age := o.token_age,
        token_age_days := (normalizeTokenAge o.token_age).1,
        token_age_hours := (normalizeTokenAge o.token_age).2,
        price_drop_pct := some r.price_drop, position_id := pid,
        full_address := full_addr, pnl_source := "meteora",
        meteora_deposited := some m.deposited_sol,
        meteora_withdrawn := some m.withdrawn_sol,
        meteora_fees := some m.fees_sol, meteora_pnl := some m.pnl_sol,
        datetime_open := makeIsoDatetime o.date o.timestamp,
        datetime_close := makeIsoDatetime r.date r.timestamp }
    | none =>
      if useDiscord then
        let estimated_loss := sol_deployed * r.price_drop / 100
        { timestamp_open := o.timestamp, timestamp_close := r.timestamp,
          target_wallet := r.target, token := o.token_name,
          position_type := o.position_type,
          sol_deployed := some sol_deployed, sol_received := some 0,
          pnl_sol := some (-estimated_loss), pnl_pct := some (-r.price_drop),
          close_reason := "rug", mc_at_open := o.market_cap,
          jup_score := o.jup_score, token_age := o.token_age,
          token_age_days := (normalizeTokenAge o.token_age).1,
          token_age_hours := (normalizeTokenAge o.token_age).2,
          price_drop_pct := some r.price_drop, position_id := pid,
          full_address := full_addr, pnl_source := "discord",
          datetime_open := makeIsoDatetime o.date o.timestamp,
          datetime_close := makeIsoDatetime r.date r.timestamp }
      else
        { timestamp_open := o.timestamp, timestamp_close := r.timestamp,
          target_wallet := r.target, token := o.token_name,
          position_type := o.position_type,
          sol_deployed := none, sol_received := none,
          pnl_sol := none, pnl_pct := none,
          close_reason := "rug", mc_at_open := o.market_cap,
          jup_score := o.jup_score, token_age := o.token_age,
          token_age_days := (normalizeTokenAge o.token_age).1,
          token_age_hours := (normalizeTokenAge o.token_age).2,
          price_drop_pct := some r.price_drop, position_id := pid,
          full_address := full_addr, pnl_source := "pending",
          datetime_open := makeIsoDatetime o.date o.timestamp,
          datetime_close := makeIsoDatetime r.date r.timestamp }
  | none =>
    match lookupStr met pid with
    | some m =>
      { timestamp_open := "", timestamp_close := r.timestamp,
        target_wallet := r.target, token := "unknown", position_type := "unknown",
        sol_deployed := some m.deposited_sol, sol_received := some m.withdrawn_sol,
        pnl_sol := some m.pnl_sol,
        pnl_pct := some (pctGuarded m.pnl_sol m.deposited_sol),
        close_reason := "rug_unknown_open", mc_at_open := 0, jup_score := 0,
        token_age := "", token_age_days := none, token_age_hours := none,
        price_drop_pct := some r.price_drop, position_id := pid,
        full_address := full_addr, pnl_source := "meteora",
        meteora_deposited := some m.deposited_sol,
        meteora_withdrawn := some m.withdrawn_sol,
        meteora_fees := some m.fees_sol, meteora_pnl := some m.pnl_sol,
        datetime_open := "",
        datetime_close := makeIsoDatetime r.date r.timestamp }
    | none =>
      if useDiscord then
        { timestamp_open := "", timestamp_close := r.timestamp,
          target_wallet := r.target, token := "unknown", position_type := "unknown",
          sol_deployed := some 0, sol_received := some 0,
          pnl_sol := some 0, pnl_pct := some 0,
          close_reason := "rug_unknown_open", mc_at_open := 0, jup_score := 0,
          token_age := "", token_age_days := none, token_age_hours := none,
          price_drop_pct := some r.price_drop, position_id := pid,
          full_address := full_addr, pnl_source := "discord",
          datetime_open := "",
          datetime_close := makeIsoDatetime r.date r.timestamp }
      else
        { timestamp_open := "", timestamp_close := r.timestamp,
          target_wallet := r.target, token := "unknown", position_type := "unknown",
          sol_deployed := none, sol_received := none,
          pnl_sol := none, pnl_pct := none,
          close_reason := "rug_unknown_open", mc_at_open := 0, jup_score := 0,
          token_age := "", token_age_days := none, token_age_hours := none,
          price_drop_pct := some r.price_drop, position_id := pid,
          full_address := full_addr, pnl_source := "pending",
          datetime_open := "",
          datetime_close := makeIsoDatetime r.date r.timestamp }

/-- The position emitted for a Rug event with no usable `position_id`
(matcher.py:445-492). -/
def rugOrphanPositionOf (useDiscord : Bool) (r : RugEvent) : MatchedPosition :=
  if useDiscord then
    { timestamp_open := "", timestamp_close := r.timestamp,
      target_wallet := r.target, token := "unknown", position_type := "unknown",
      sol_deployed := some 0, sol_received := some 0,
      pnl_sol := some 0, pnl_pct := some 0,
      close_reason := "rug_unknown_open", mc_at_open := 0, jup_score := 0,
      token_age := "", token_age_days := none, token_age_hours := none,
      price_drop_pct := some r.price_drop, position_id := "",
      pnl_source := "discord",
      datetime_open := "",
      datetime_close := makeIsoDatetime r.date r.timestamp }
  else
    { timestamp_open := "", timestamp_close := r.timestamp,
      target_wallet := r.target, token := "unknown", position_type := "unknown",
      sol_deployed := none, sol_received := none,
      pnl_sol := none, pnl_pct := none,
      close_reason := "rug_unknown_open", mc_at_open := 0, jup_score := 0,
      token_age := "", token_age_days := none, token_age_hours := none,
      price_drop_pct := some r.price_drop, position_id := "",
      pnl_source := "pending",
      datetime_open := "",
      datetime_close := makeIsoDatetime r.date r.timestamp }

/-- The matcher's loop state: the (mutated) resolved-address dict, the set of
consumed `position_id`s, and the positions emitted so far. -/
structure MatchState where
  resolved : List (String × String)
  matched : List String
  out : List MatchedPosition

/-- One step of the Close loop (matcher.py:52-249): a `position_id` already in
`matched_ids` is skipped; otherwise it is consumed and one position is
emitted. -/
def processClose (openById : List (String × OpenEvent)) (failsafeIds : List String)
    (liqs : List AddLiquidityEvent) (met : List (String × MeteoraPnlResult))
    (useDiscord : Bool) (st : MatchState) (c : CloseEvent) : MatchState :=
  if c.position_id ∈ st.matched then st
  else
    { st with
      matched := c.position_id :: st.matched,
      out := st.out ++
        [closePositionOf openById failsafeIds liqs met st.resolved useDiscord c] }

/-- One step of the Rug loop (matcher.py:252-492): a rug with a truthy
`position_id` marks the id consumed (without checking whether it already
was), possibly adds its full address to the resolved dict, and emits one
position; a rug without one emits an orphan position. -/
def processRug (openById : List (String × OpenEvent))
    (liqs : List AddLiquidityEvent) (met : List (String × MeteoraPnlResult))
    (useDiscord : Bool) (st : MatchState) (r : RugEvent) : MatchState :=
  match r.position_id with
  | some pid =>
    if pid ≠ "" then
      let resolved :=
        if r.position_address ≠ "" ∧ lookupStr st.resolved pid = none then
          st.resolved ++ [(pid, r.position_address)]
        else st.resolved
      { resolved := resolved,
        matched := pid :: st.matched,
        out := st.out ++ [rugPositionOf openById liqs met resolved useDiscord r pid] }
    else
      { st with out := st.out ++ [rugOrphanPositionOf useDiscord r] }
  | none =>
    { st with out := st.out ++ [rugOrphanPositionOf useDiscord r] }

/-- `PositionMatcher.match_positions` (matcher.py:22-497): Close events first,
then Rug events; returns the matched positions and the Open events whose id
no terminating event consumed. -/
def matchPositions (opens : List OpenEvent) (closes : List CloseEvent)
    (rugs : List RugEvent) (failsafes : List FailsafeEvent)
    (liqs : List AddLiquidityEvent) (met : List (String × MeteoraPnlResult))
    (resolved : List (String × String)) (useDiscord : Bool) :
    List MatchedPosition × List OpenEvent :=
  let openById := opens.map (fun e => (e.position_id, e))
  let failsafeIds := failsafes.map (fun e => e.position_id)
  let st1 := closes.foldl (processClose openById failsafeIds liqs met useDiscord)
    ⟨resolved, [], []⟩
  let st2 := rugs.foldl (processRug openById liqs met useDiscord) st1
  (st2.out, opens.filter (fun o => o.position_id ∉ st2.matched))

/-! ## Incremental merge engine (`src/valhalla/merge.py`)

`merge_with_existing_csv` reads the persisted `positions.csv`, parses each
row with a non-empty `position_id` into a `MatchedPosition` (keyed by id,
last row wins) and merges the new batch in. The embedding works on the parsed
rows: `existingRows` below is the persisted store's list of Position rows. -/

/-- `is_fully_complete` (merge.py:118-122): has open data (`close_reason` not
a `*_unknown_open`), has close data (`close_reason ≠ still_open`) and
`pnl_source = meteora`. -/
def isFullyComplete (pos : MatchedPosition) : Bool :=
  (!(pos.close_reason = "unknown_open" ∨ pos.close_reason = "rug_unknown_open")) &&
  pos.close_reason ≠ "still_open" && pos.pnl_source = "meteora"

/-- `enrich_existing_with_open` (merge.py:125-147): take open-side data from
`newPos`, keep close-side and Meteora data from `existing`, and upgrade a
`*_unknown_open` close reason. The Python function mutates field by field;
each update touches a distinct field, so the simultaneous record update below
is the same function. -/
def enrichExistingWithOpen (existing newPos : MatchedPosition) : MatchedPosition :=
  { existing with
    timestamp_open :=
      if newPos.timestamp_open ≠ "" then newPos.timestamp_open else existing.timestamp_open,
    datetime_open :=
      if newPos.datetime_open ≠ "" then newPos.datetime_open else existing.datetime_open,
    token :=
      if newPos.token ≠ "" ∧ newPos.token ≠ "unknown" then newPos.token else existing.token,
    position_type :=
      if newPos.position_type ≠ "" ∧ newPos.position_type ≠ "unknown" then
        newPos.position_type
      else existing.position_type,
    mc_at_open :=
      if newPos.mc_at_open ≠ 0 ∧ 0 < newPos.mc_at_open then newPos.mc_at_open
      else existing.mc_at_open,
    jup_score :=
      if newPos.jup_score ≠ 0 ∧ 0 < newPos.jup_score then newPos.jup_score
      else existing.jup_score,
    token_age :=
      if newPos.token_age ≠ "" then newPos.token_age else existing.token_age,
    token_age_days :=
      if newPos.token_age ≠ "" then newPos.token_age_days else existing.token_age_days,
    token_age_hours :=
      if newPos.token_age ≠ "" then newPos.token_age_hours else existing.token_age_hours,
    close_reason :=
      if existing.close_reason = "unknown_open" ∨ existing.close_reason = "rug_unknown_open" then
        if existing.close_reason = "rug_unknown_open" then "rug" else "normal"
      else existing.close_reason }

/-- The temporary `MatchedPosition` built from a still-open event so the
enrich helper applies to it (merge.py:180-203). -/
def openAsMatched (pid : String) (e : OpenEvent) : MatchedPosition :=
  { timestamp_open := e.timestamp, timestamp_close := "",
    target_wallet := e.target, token := e.token_name,
    position_type := e.position_type,
    sol_deployed := if e.your_sol ≠ 0 then some e.your_sol else none,
    sol_received := none, pnl_sol := none, pnl_pct := none,
    close_reason := "", mc_at_open := e.market_cap, jup_score := e.jup_score,
    token_age := e.token_age,
    token_age_days :=
      if e.token_age ≠ "" then (normalizeTokenAge e.token_age).1 else none,
    token_age_hours :=
      if e.token_age ≠ "" then (normalizeTokenAge e.token_age).2 else none,
    price_drop_pct := none, position_id := pid, full_address := "",
    pnl_source := "",
    meteora_deposited := none, meteora_withdrawn := none,
    meteora_fees := none, meteora_pnl := none,
    datetime_open :=
      if e.date ≠ "" ∧ e.timestamp ≠ "" then
        e.date ++ "T" ++ stripSquare e.timestamp ++ ":00"
      else "",
    datetime_close := "" }

/-- A persisted `still_open`-style row converted back into an `OpenEvent`
(merge.py:229-243). -/
def rowToOpenEvent (pos : MatchedPosition) : OpenEvent :=
  { timestamp := pos.timestamp_open,
    position_type := pos.position_type,
    token_name := pos.token,
    token_pair := pos.token ++ "-SOL",
    target := pos.target_wallet,
    market_cap := pos.mc_at_open,
    token_age := pos.token_age,
    jup_score := pos.jup_score,
    target_sol := pos.sol_deployed.getD 0,
    your_sol := pos.sol_deployed.getD 0,
    position_id := pos.position_id,
    tx_signatures := [],
    date :=
      if pos.datetime_open ≠ "" ∧ 'T' ∈ pos.datetime_open.toList then
        beforeT pos.datetime_open
      else "" }

/-- The merge decision for one persisted row (merge.py:160-247), given the
new batch's matched position and still-open event for the row's id:
rule 1 keep fully-complete rows; rule 2 enrich meteora `*_unknown_open` rows
from new open-side data; rule 3 keep other meteora rows; rule 4 let new data
win over `pending`/`discord` rows, converting an untouched `still_open` row
back into an open event. `inl` lands in the merged closed list, `inr` in the
merged still-open list. -/
def mergeRow (newM : Option MatchedPosition) (newO : Option OpenEvent)
    (r : MatchedPosition) : MatchedPosition ⊕ OpenEvent :=
  if isFullyComplete r then .inl r
  else if r.pnl_source = "meteora" ∧
      (r.close_reason = "unknown_open" ∨ r.close_reason = "rug_unknown_open") then
    match newM with
    | some b =>
      if b.timestamp_open ≠ "" then .inl (enrichExistingWithOpen r b)
      else
        match newO with
        | some e => .inl (enrichExistingWithOpen r (openAsMatched r.position_id e))
        | none => .inl r
    | none =>
      match newO with
      | some e => .inl (enrichExistingWithOpen r (openAsMatched r.position_id e))
      | none => .inl r
  else if r.pnl_source = "meteora" then .inl r
  else
    match newM with
    | some b => .inl b
    | none =>
      match newO with
      | some e => .inr e
      | none =>
        if r.close_reason = "still_open" then .inr (rowToOpenEvent r) else .inl r

/-- The closed-position component of a merge decision. -/
def leftPart : MatchedPosition ⊕ OpenEvent → Option MatchedPosition
  | .inl p => some p
  | .inr _ => none

/-- The still-open component of a merge decision. -/
def rightPart : MatchedPosition ⊕ OpenEvent → Option OpenEvent
  | .inl _ => none
  | .inr e => some e

/-- The key of a merge decision's outcome. -/
def sumKey : MatchedPosition ⊕ OpenEvent → String
  | .inl p => p.position_id
  | .inr e => e.position_id

/-- `merge_with_existing_csv` (merge.py:14-269) on parsed rows: every
persisted row (non-empty id, last row per id wins) is processed by
`mergeRow`; ids present only in the new batch are appended as new records. -/
def mergeWithExistingCsv (newMatched : List MatchedPosition)
    (newStillOpen : List OpenEvent) (existingRows : List MatchedPosition) :
    List MatchedPosition × List OpenEvent :=
  let nmF := newMatched.filter (fun p => p.position_id ≠ "")
  let noF := newStillOpen.filter (fun e => e.position_id ≠ "")
  let ex := dedupBy (fun p => p.position_id) (existingRows.filter (fun r => r.position_id ≠ ""))
  let processed := ex.map (fun r => mergeRow (mrGet nmF r.position_id) (oeGet noF r.position_id) r)
  let mergedMatched := processed.filterMap leftPart
  let mergedStill := processed.filterMap rightPart
  let newAddsM := (dedupBy (fun p => p.position_id) nmF).filter
    (fun b => mrGet ex b.position_id = none)
  let newAddsO := (dedupBy (fun e => e.position_id) noF).filter
    (fun e => mrGet ex e.position_id = none)
  (mergedMatched ++ newAddsM, mergedStill ++ newAddsO)

/-- Modelled from the spec: `merge_with_existing_csv` has no caller under
`src/`; the component persisting the merged still-open events back into the
Position-row store ("persisted position store: a keyed collection of Position
rows ... replaceable wholesale at merge end", §6; "converting a persisted
still_open style row back into a still-open event object ... if that was its
original state", §4.3 rule 3) is missing. This is the `still_open`-style row
it persists for a still-open event: open-side fields carried over, no close
data, no PnL (`pnl_source = pending`, the "none" tier). -/
def openRowOf (e : OpenEvent) : MatchedPosition :=
  { timestamp_open := e.timestamp, timestamp_close := "",
    target_wallet := e.target, token := e.token_name,
    position_type := e.position_type,
    sol_deployed := some e.your_sol, sol_received := none,
    pnl_sol := none, pnl_pct := none,
    close_reason := "still_open", mc_at_open := e.market_cap,
    jup_score := e.jup_score, token_age := e.token_age,
    token_age_days := (normalizeTokenAge e.token_age).1,
    token_age_hours := (normalizeTokenAge e.token_age).2,
    price_drop_pct := none, position_id := e.position_id, full_address := "",
    pnl_source := "pending",
    meteora_deposited := none, meteora_withdrawn := none,
    meteora_fees := none, meteora_pnl := none,
    datetime_open := makeIsoDatetime e.date e.timestamp,
    datetime_close := "" }

/-! ## PnL calculator (`src/valhalla/meteora.py`)

`MeteoraPnlCalculator.calculate_pnl` fetches deposits, withdrawals and
claimed fees for a position address and folds each list into SOL-equivalent
totals with a running fallback SOL price. A `TxEntry` holds the four values
`_tx_sol_equiv` reads from an API entry once the SOL side of the pair is
fixed: the SOL-side raw amount (lamports), the SOL-side USD amount, the
token-side USD amount, and the DLMM bin `price` field (0 when absent).
Each withdrawal is paired with the optional Moralis market price the caller
looks up for token-only withdrawals (`none` when no pricer/pair/timestamp or
the lookup fails). A `none` dataset models a failed fetch; any failure makes
the whole calculation fail (`none`), and `solSideKnown = false` models a
missing `pair_address` or a pair with no SOL side. -/

structure TxEntry where
  sol_raw : ℚ
  sol_usd : ℚ
  tok_usd : ℚ
  price : ℚ
  deriving DecidableEq, Repr

/-- `_tx_sol_equiv` (meteora.py:168-209): returns
`(sol_amount, sol_equiv_total, total_usd, sol_price_used)`. -/
def txSolEquiv (entry : TxEntry) (fallbackSolPrice : ℚ) (marketPriceUsd : Option ℚ) :
    ℚ × ℚ × ℚ × ℚ :=
  let solAmt := entry.sol_raw / 1000000000
  let solPrice :=
    if 0 < solAmt ∧ 0 < entry.sol_usd then entry.sol_usd / solAmt
    else fallbackSolPrice
  let tokenSolEquiv :=
    if 0 < entry.tok_usd ∧ 0 < solPrice then entry.tok_usd / solPrice else 0
  let tokenSolEquiv :=
    match marketPriceUsd with
    | some m =>
      if solAmt = 0 ∧ m ≠ 0 ∧ 0 < solPrice then
        if 0 < entry.price then
          let marketPriceSol := m / solPrice
          if 0 < marketPriceSol then
            entry.tok_usd / solPrice * (marketPriceSol / entry.price)
          else tokenSolEquiv
        else tokenSolEquiv
      else tokenSolEquiv
    | none => tokenSolEquiv
  (solAmt, solAmt + tokenSolEquiv, entry.sol_usd + entry.tok_usd, solPrice)

/-- Accumulated totals of one transaction list plus the running fallback SOL
price (meteora.py:211-277). -/
structure TxSums where
  tot : ℚ
  equiv : ℚ
  usd : ℚ
  running : ℚ
  deriving DecidableEq, Repr

/-- Fold one transaction into the running totals, updating the running SOL
price when this transaction derived a positive one. -/
def stepTx (st : TxSums) (e : TxEntry × Option ℚ) : TxSums :=
  let r := txSolEquiv e.1 st.running e.2
  { tot := st.tot + r.1, equiv := st.equiv + r.2.1, usd := st.usd + r.2.2.1,
    running := if 0 < r.2.2.2 then r.2.2.2 else st.running }

/-- `MeteoraPnlCalculator.calculate_pnl` (meteora.py:126-296): fails when the
SOL side is unknown or any dataset fetch failed; otherwise folds deposits,
then withdrawals, then fees, and returns the totals with
`pnl = withdrawn + fees - deposited` in both currencies. -/
def calculatePnl (solSideKnown : Bool) (deposits : Option (List TxEntry))
    (withdraws : Option (List (TxEntry × Option ℚ))) (fees : Option (List TxEntry)) :
    Option MeteoraPnlResult :=
  if !solSideKnown then none else
  match deposits, withdraws, fees with
  | some dep, some wdr, some fee =>
    let d := dep.foldl (fun st e => stepTx st (e, none)) ⟨0, 0, 0, 0⟩
    let w := wdr.foldl stepTx ⟨0, 0, 0, d.running⟩
    let f := fee.foldl (fun st e => stepTx st (e, none)) ⟨0, 0, 0, w.running⟩
    some { deposited_sol := d.equiv, withdrawn_sol := w.equiv, fees_sol := f.equiv,
           deposited_usd := d.usd, withdrawn_usd := w.usd, fees_usd := f.usd,
           pnl_usd := w.usd + f.usd - d.usd,
           pnl_sol := w.equiv + f.equiv - d.equiv }
  | _, _, _ => none

/-- The spec's trust order on `pnl_source`: `pending < discord < meteora`
(§3, §4.3); rank comparison makes the monotonicity claims statable. -/
def pnlSourceRank (s : String) : Nat :=
  if s = "meteora" then 2 else if s = "discord" then 1 else 0

/-! ## Lookup lemmas -/

theorem dictLast_eq_key {α : Type} (key : α → String) (l : List α) (k : String)
    (x : α) (h : dictLast key l k = some x) : key x = k := by
  induction l with
  | nil => simp [dictLast] at h
  | cons a rest ih =>
    simp only [dictLast] at h
    rcases hr : dictLast key rest k with _ | y
    · rw [hr] at h
      have h' : (if key a = k then some a else none) = some x := h
      by_cases hak : key a = k
      · rw [if_pos hak] at h'
        injection h' with h''
        exact h'' ▸ hak
      · rw [if_neg hak] at h'
        simp at h'
    · rw [hr] at h
      have h' : some y = some x := h
      injection h' with h''
      exact ih (h'' ▸ hr)

theorem dictLast_mem {α : Type} (key : α → String) (l : List α) (k : String)
    (x : α) (h : dictLast key l k = some x) : x ∈ l := by
  induction l with
  | nil => simp [dictLast] at h
  | cons a rest ih =>
    simp only [dictLast] at h
    rcases hr : dictLast key rest k with _ | y
    · rw [hr] at h
      have h' : (if key a = k then some a else none) = some x := h
      by_cases hak : key a = k
      · rw [if_pos hak] at h'
        injection h' with h''
        exact h'' ▸ List.mem_cons_self a rest
      · rw [if_neg hak] at h'
        simp at h'
    · rw [hr] at h
      have h' : some y = some x := h
      injection h' with h''
      exact List.mem_cons_of_mem a (ih (h'' ▸ hr))

theorem dictLast_eq_none_iff {α : Type} (key : α → String) (l : List α) (k : String) :
    dictLast key l k = none ↔ ∀ y ∈ l, key y ≠ k := by
  induction l with
  | nil => simp [dictLast]
  | cons a rest ih =>
    simp only [dictLast]
    rcases hr : dictLast key rest k with _ | y
    · constructor
      · intro h y hy
        have h' : (if key a = k then some a else none) = none := h
        rcases List.mem_cons.mp hy with h1 | h1
        · subst h1
          intro hk
          rw [if_pos hk] at h'
          simp at h'
        · exact (ih.mp hr) y h1
      · intro h
        have hak : ¬ key a = k := h a (List.mem_cons_self a rest)
        show (if key a = k then some a else none) = none
        rw [if_neg hak]
    · constructor
      · intro h
        have h' : some y = (none : Option α) := h
        simp at h'
      · intro h
        have hmem := dictLast_mem key rest k y hr
        have hkey := dictLast_eq_key key rest k y hr
        exact absurd hkey (h y (List.mem_cons_of_mem a hmem))

theorem dictLast_append {α : Type} (key : α → String) (a b : List α) (k : String) :
    dictLast key (a ++ b) k = orO (dictLast key b k) (dictLast key a k) := by
  induction a with
  | nil => cases h : dictLast key b k <;> simp [dictLast, orO, h]
  | cons x rest ih =>
    simp only [List.cons_append, dictLast, List.append_eq]
    rw [ih]
    rcases hb : dictLast key b k with _ | yb <;>
      rcases hr : dictLast key rest k with _ | yr <;> simp [orO, hb, hr]

theorem dictLast_dedupBy {α : Type} (key : α → String) (l : List α) (k : String) :
    dictLast key (dedupBy key l) k = dictLast key l k := by
  induction l with
  | nil => rfl
  | cons a rest ih =>
    simp only [dedupBy]
    split
    · rename_i hany
      rw [ih]
      simp only [dictLast]
      rcases hr : dictLast key rest k with _ | y
      · rcases List.any_eq_true.mp hany with ⟨y, hy, hkey⟩
        by_cases hak : key a = k
        · exact absurd ((dictLast_eq_none_iff key rest k).mp hr y hy)
            (by simp [of_decide_eq_true hkey, hak])
        · rw [if_neg hak]
      · rfl
    · simp only [dictLast, ih]

theorem mem_dedupBy {α : Type} (key : α → String) (l : List α) (x : α)
    (h : x ∈ dedupBy key l) : x ∈ l := by
  induction l with
  | nil => simp [dedupBy] at h
  | cons a rest ih =>
    simp only [dedupBy] at h
    split at h
    · exact List.mem_cons_of_mem a (ih h)
    · rcases List.mem_cons.mp h with h1 | h1
      · simp [h1]
      · exact List.mem_cons_of_mem a (ih h1)

theorem dedupBy_keys_nodup {α : Type} (key : α → String) (l : List α) :
    (dedupBy key l).Pairwise (fun x y => key x ≠ key y) := by
  induction l with
  | nil => simp [dedupBy]
  | cons a rest ih =>
    simp only [dedupBy]
    split
    · exact ih
    · rename_i hany
      refine List.Pairwise.cons ?_ ih
      intro y hy hkey
      exact hany (List.any_eq_true.mpr ⟨y, mem_dedupBy key rest y hy, by simp [hkey]⟩)

theorem dictLast_filter_true {α : Type} (key : α → String) (l : List α) (k : String)
    (p : α → Bool) (h : ∀ x ∈ l, key x = k → p x = true) :
    dictLast key (l.filter p) k = dictLast key l k := by
  induction l with
  | nil => rfl
  | cons a rest ih =>
    have ih' := ih (fun x hx => h x (List.mem_cons_of_mem a hx))
    by_cases hp : p a = true
    · rw [List.filter_cons_of_pos hp]
      simp only [dictLast, ih']
    · have hka : key a ≠ k := fun hk => hp (h a (List.mem_cons_self a rest) hk)
      rw [List.filter_cons_of_neg (by simpa using hp), ih']
      simp only [dictLast]
      rcases hr : dictLast key rest k with _ | y
      · rw [if_neg hka]
      · rfl

theorem dictLast_filter_false {α : Type} (key : α → String) (l : List α) (k : String)
    (p : α → Bool) (h : ∀ x ∈ l, key x = k → p x = false) :
    dictLast key (l.filter p) k = none := by
  rw [dictLast_eq_none_iff]
  intro y hy hk
  have hmem := List.mem_of_mem_filter hy
  have hp := List.of_mem_filter hy
  rw [h y hmem hk] at hp
  exact absurd hp (by simp)

theorem dictLast_map {α β : Type} (keyA : α → String) (keyB : β → String)
    (f : α → β) (l : List α) (k : String) (hkey : ∀ x ∈ l, keyB (f x) = keyA x) :
    dictLast keyB (l.map f) k = (dictLast keyA l k).map f := by
  induction l with
  | nil => rfl
  | cons a rest ih =>
    simp only [List.map_cons, dictLast,
      ih (fun x hx => hkey x (List.mem_cons_of_mem a hx))]
    rcases hr : dictLast keyA rest k with _ | y
    · simp [hkey a (List.mem_cons_self a rest)]
    · rfl

/-- Lookup through a `filterMap` whose survivors keep their source's key:
with pairwise distinct keys, looking `k` up among the survivors is `G` of the
element at `k`. -/
theorem dictLast_filterMap_key {α γ : Type} (keyA : α → String) (keyC : γ → String)
    (G : α → Option γ) (l : List α) (k : String)
    (hnd : l.Pairwise (fun x y => keyA x ≠ keyA y))
    (hkey : ∀ x ∈ l, ∀ c, G x = some c → keyC c = keyA x) :
    dictLast keyC (l.filterMap G) k = (dictLast keyA l k).bind G := by
  induction l with
  | nil => rfl
  | cons a rest ih =>
    have hnd' := (List.pairwise_cons.mp hnd).2
    have ha_not : ∀ y ∈ rest, keyA a ≠ keyA y := (List.pairwise_cons.mp hnd).1
    have ih' := ih hnd' (fun x hx => hkey x (List.mem_cons_of_mem a hx))
    rw [List.filterMap_cons]
    rcases hG : G a with _ | c
    · rcases hrest : dictLast keyA rest k with _ | y
      · by_cases hk : keyA a = k <;>
          simp [dictLast, ih', hrest, hG, hk]
      · simp [dictLast, ih', hrest]
    · have hc : keyC c = keyA a := hkey a (List.mem_cons_self a rest) c hG
      rcases hrest : dictLast keyA rest k with _ | y
      · by_cases hk : keyA a = k <;>
          simp [dictLast, ih', hrest, hG, hc, hk]
      · have hyk := dictLast_eq_key keyA rest k y hrest
        have hya := ha_not y (dictLast_mem keyA rest k y hrest)
        have hck : keyC c ≠ k := by
          rw [hc]
          exact fun hh => hya (hh.trans hyk.symm)
        rcases hGy : G y with _ | z <;>
          simp [dictLast, ih', hrest, hGy, hck]

theorem orO_none_right {α : Type} (a : Option α) : orO a none = a := by
  cases a <;> rfl

theorem orO_none_left {α : Type} (b : Option α) : orO none b = b := rfl

/-! ## Per-key evaluation of the merge output -/

theorem enrich_position_id (r np : MatchedPosition) :
    (enrichExistingWithOpen r np).position_id = r.position_id := rfl

/-- The merge decision for a row keeps the row's key, provided the looked-up
batch entries carry it (which `dictLast` lookups do). -/
theorem mergeRow_key (nm : Option MatchedPosition) (no : Option OpenEvent)
    (r : MatchedPosition)
    (hm : ∀ b, nm = some b → b.position_id = r.position_id)
    (ho : ∀ e, no = some e → e.position_id = r.position_id) :
    sumKey (mergeRow nm no r) = r.position_id := by
  rcases nm with _ | b <;> rcases no with _ | e <;>
    simp only [mergeRow] <;> split_ifs <;>
    simp_all [sumKey, enrichExistingWithOpen, rowToOpenEvent, openAsMatched]

theorem leftPart_key (s : MatchedPosition ⊕ OpenEvent) (c : MatchedPosition)
    (h : leftPart s = some c) : c.position_id = sumKey s := by
  rcases s with p | e
  · simp only [leftPart] at h
    injection h with h'
    rw [← h']
    rfl
  · simp [leftPart] at h

theorem rightPart_key (s : MatchedPosition ⊕ OpenEvent) (c : OpenEvent)
    (h : rightPart s = some c) : c.position_id = sumKey s := by
  rcases s with p | e
  · simp [rightPart] at h
  · simp only [rightPart] at h
    injection h with h'
    rw [← h']
    rfl

/-- Lookup at `k` in a merge-shaped list: rows of `SF` (deduplicated by key)
sent through a key-preserving partial map `G`, followed by the elements of
`NF` (deduplicated) whose key is absent from `SF`. The element at `k` is
`G` of `SF`'s row at `k` when `SF` has one, else `NF`'s element at `k`. -/
theorem dictLast_mergeShape {α γ : Type} [DecidableEq α] (keyA : α → String)
    (keyC : γ → String)
    (G : α → Option γ) (SF : List α) (NF : List γ) (k : String)
    (hkey : ∀ x ∈ dedupBy keyA SF, ∀ c, G x = some c → keyC c = keyA x) :
    dictLast keyC
      (((dedupBy keyA SF).filterMap G) ++
        ((dedupBy keyC NF).filter
          (fun c => dictLast keyA (dedupBy keyA SF) (keyC c) = none))) k =
      (match dictLast keyA SF k with
       | some r => G r
       | none => dictLast keyC NF k) := by
  rw [dictLast_append]
  rw [dictLast_filterMap_key keyA keyC G (dedupBy keyA SF) k
    (dedupBy_keys_nodup keyA SF) hkey]
  rw [dictLast_dedupBy]
  rcases hS : dictLast keyA SF k with _ | r
  · have hfilter : dictLast keyC
        ((dedupBy keyC NF).filter
          (fun c => dictLast keyA (dedupBy keyA SF) (keyC c) = none)) k =
        dictLast keyC (dedupBy keyC NF) k := by
      apply dictLast_filter_true
      intro x _ hxk
      simp only [hxk, dictLast_dedupBy, hS]
      rfl
    rw [hfilter, dictLast_dedupBy]
    simp only [Option.bind]
    exact orO_none_right _
  · have hfilter : dictLast keyC
        ((dedupBy keyC NF).filter
          (fun c => dictLast keyA (dedupBy keyA SF) (keyC c) = none)) k = none := by
      apply dictLast_filter_false
      intro x _ hxk
      simp only [hxk, dictLast_dedupBy, hS]
      rfl
    rw [hfilter]
    simp only [Option.bind, orO_none_left]

/-- What the merged closed-position list holds at key `k`: the closed outcome
of the persisted row at `k` when there is one, otherwise the new batch's
matched position at `k`. -/
theorem merge_fst_get (Bm : List MatchedPosition) (Bo : List OpenEvent)
    (S : List MatchedPosition) (k : String) :
    mrGet (mergeWithExistingCsv Bm Bo S).1 k =
      (match mrGet (S.filter (fun r => r.position_id ≠ "")) k with
       | some r =>
         leftPart (mergeRow (mrGet (Bm.filter (fun p => p.position_id ≠ "")) k)
           (oeGet (Bo.filter (fun e => e.position_id ≠ "")) k) r)
       | none => mrGet (Bm.filter (fun p => p.position_id ≠ "")) k) := by
  have hkey : ∀ x ∈ dedupBy (fun p : MatchedPosition => p.position_id)
        (S.filter (fun r => r.position_id ≠ "")), ∀ c,
      (leftPart ∘ fun r => mergeRow
          (mrGet (Bm.filter (fun p => p.position_id ≠ "")) r.position_id)
          (oeGet (Bo.filter (fun e => e.position_id ≠ "")) r.position_id) r) x = some c →
      c.position_id = x.position_id := by
    intro x _ c hc
    have h1 := leftPart_key _ c hc
    have h2 := mergeRow_key
      (mrGet (Bm.filter (fun p => p.position_id ≠ "")) x.position_id)
      (oeGet (Bo.filter (fun e => e.position_id ≠ "")) x.position_id) x
      (fun b hb => dictLast_eq_key _ _ x.position_id b hb)
      (fun e he => dictLast_eq_key _ _ x.position_id e he)
    exact h1.trans h2
  have hmain := dictLast_mergeShape (fun p : MatchedPosition => p.position_id)
    (fun p : MatchedPosition => p.position_id)
    (leftPart ∘ fun r => mergeRow
      (mrGet (Bm.filter (fun p => p.position_id ≠ "")) r.position_id)
      (oeGet (Bo.filter (fun e => e.position_id ≠ "")) r.position_id) r)
    (S.filter (fun r => r.position_id ≠ ""))
    (Bm.filter (fun p => p.position_id ≠ "")) k hkey
  have hshape : mrGet (mergeWithExistingCsv Bm Bo S).1 k =
      dictLast (fun p : MatchedPosition => p.position_id)
        (((dedupBy (fun p : MatchedPosition => p.position_id)
            (S.filter (fun r => r.position_id ≠ ""))).filterMap
          (leftPart ∘ fun r => mergeRow
            (mrGet (Bm.filter (fun p => p.position_id ≠ "")) r.position_id)
            (oeGet (Bo.filter (fun e => e.position_id ≠ "")) r.position_id) r)) ++
          ((dedupBy (fun p : MatchedPosition => p.position_id)
            (Bm.filter (fun p => p.position_id ≠ ""))).filter
            (fun c => dictLast (fun p : MatchedPosition => p.position_id)
              (dedupBy (fun p : MatchedPosition => p.position_id)
                (S.filter (fun r => r.position_id ≠ ""))) c.position_id = none))) k := by
    simp only [mergeWithExistingCsv, mrGet, oeGet, List.filterMap_map]
  rw [hshape, hmain]
  simp only [mrGet, oeGet]
  rcases hS : dictLast (fun p : MatchedPosition => p.position_id)
      (S.filter (fun r => r.position_id ≠ "")) k with _ | r
  · rfl
  · have hrk := dictLast_eq_key _ _ k r hS
    simp only [Function.comp_apply, hrk]

/-- What the merged still-open list holds at key `k`: the still-open outcome
of the persisted row at `k` when there is one, otherwise the new batch's
still-open event at `k`. -/
theorem merge_snd_get (Bm : List MatchedPosition) (Bo : List OpenEvent)
    (S : List MatchedPosition) (k : String) :
    oeGet (mergeWithExistingCsv Bm Bo S).2 k =
      (match mrGet (S.filter (fun r => r.position_id ≠ "")) k with
       | some r =>
         rightPart (mergeRow (mrGet (Bm.filter (fun p => p.position_id ≠ "")) k)
           (oeGet (Bo.filter (fun e => e.position_id ≠ "")) k) r)
       | none => oeGet (Bo.filter (fun e => e.position_id ≠ "")) k) := by
  have hkey : ∀ x ∈ dedupBy (fun p : MatchedPosition => p.position_id)
        (S.filter (fun r => r.position_id ≠ "")), ∀ c,
      (rightPart ∘ fun r => mergeRow
          (mrGet (Bm.filter (fun p => p.position_id ≠ "")) r.position_id)
          (oeGet (Bo.filter (fun e => e.position_id ≠ "")) r.position_id) r) x = some c →
      c.position_id = x.position_id := by
    intro x _ c hc
    have h1 := rightPart_key _ c hc
    have h2 := mergeRow_key
      (mrGet (Bm.filter (fun p => p.position_id ≠ "")) x.position_id)
      (oeGet (Bo.filter (fun e => e.position_id ≠ "")) x.position_id) x
      (fun b hb => dictLast_eq_key _ _ x.position_id b hb)
      (fun e he => dictLast_eq_key _ _ x.position_id e he)
    exact h1.trans h2
  have hmain := dictLast_mergeShape (fun p : MatchedPosition => p.position_id)
    (fun e : OpenEvent => e.position_id)
    (rightPart ∘ fun r => mergeRow
      (mrGet (Bm.filter (fun p => p.position_id ≠ "")) r.position_id)
      (oeGet (Bo.filter (fun e => e.position_id ≠ "")) r.position_id) r)
    (S.filter (fun r => r.position_id ≠ ""))
    (Bo.filter (fun e => e.position_id ≠ "")) k hkey
  have hshape : oeGet (mergeWithExistingCsv Bm Bo S).2 k =
      dictLast (fun e : OpenEvent => e.position_id)
        (((dedupBy (fun p : MatchedPosition => p.position_id)
            (S.filter (fun r => r.position_id ≠ ""))).filterMap
          (rightPart ∘ fun r => mergeRow
            (mrGet (Bm.filter (fun p => p.position_id ≠ "")) r.position_id)
            (oeGet (Bo.filter (fun e => e.position_id ≠ "")) r.position_id) r)) ++
          ((dedupBy (fun e : OpenEvent => e.position_id)
            (Bo.filter (fun e => e.position_id ≠ ""))).filter
            (fun c => dictLast (fun p : MatchedPosition => p.position_id)
              (dedupBy (fun p : MatchedPosition => p.position_id)
                (S.filter (fun r => r.position_id ≠ ""))) c.position_id = none))) k := by
    simp only [mergeWithExistingCsv, mrGet, oeGet, List.filterMap_map]
  rw [hshape, hmain]
  simp only [mrGet, oeGet]
  rcases hS : dictLast (fun p : MatchedPosition => p.position_id)
      (S.filter (fun r => r.position_id ≠ "")) k with _ | r
  · rfl
  · have hrk := dictLast_eq_key _ _ k r hS
    simp only [Function.comp_apply, hrk]

/-! ## Merge behaviour per rule -/

/-- All PnL-bearing and Meteora-provenance fields of `r'` equal those of
`r`: nothing the trusted source populated was overwritten. -/
def meteoraPreserved (r' r : MatchedPosition) : Prop :=
  r'.pnl_source = r.pnl_source ∧
  r'.meteora_deposited = r.meteora_deposited ∧
  r'.meteora_withdrawn = r.meteora_withdrawn ∧
  r'.meteora_fees = r.meteora_fees ∧
  r'.meteora_pnl = r.meteora_pnl ∧
  r'.pnl_sol = r.pnl_sol ∧
  r'.pnl_pct = r.pnl_pct ∧
  r'.sol_deployed = r.sol_deployed ∧
  r'.sol_received = r.sol_received

theorem meteoraPreserved_refl (r : MatchedPosition) : meteoraPreserved r r :=
  ⟨rfl, rfl, rfl, rfl, rfl, rfl, rfl, rfl, rfl⟩

theorem enrich_meteoraPreserved (r np : MatchedPosition) :
    meteoraPreserved (enrichExistingWithOpen r np) r :=
  ⟨rfl, rfl, rfl, rfl, rfl, rfl, rfl, rfl, rfl⟩

theorem mergeRow_fullyComplete (nm : Option MatchedPosition) (no : Option OpenEvent)
    (r : MatchedPosition) (h : isFullyComplete r = true) :
    mergeRow nm no r = .inl r := by
  simp only [mergeRow, h, if_true]

/-- Rules 1-3 never let a `meteora`-sourced row leave the closed list, and
never touch its PnL or `meteora_*` fields. -/
theorem mergeRow_meteora (nm : Option MatchedPosition) (no : Option OpenEvent)
    (r : MatchedPosition) (h : r.pnl_source = "meteora") :
    ∃ r', mergeRow nm no r = .inl r' ∧ meteoraPreserved r' r := by
  rcases nm with _ | b <;> rcases no with _ | e <;>
    simp only [mergeRow] <;> split_ifs <;>
    first
      | exact ⟨r, rfl, meteoraPreserved_refl r⟩
      | exact ⟨_, rfl, enrich_meteoraPreserved r _⟩
      | (exfalso; simp_all)

/-- The open-side fields of `r'` are those of `src`. -/
def openSideFrom (r' src : MatchedPosition) : Prop :=
  r'.timestamp_open = src.timestamp_open ∧
  r'.datetime_open = src.datetime_open ∧
  r'.token = src.token ∧
  r'.position_type = src.position_type ∧
  r'.mc_at_open = src.mc_at_open ∧
  r'.jup_score = src.jup_score ∧
  r'.token_age = src.token_age ∧
  r'.token_age_days = src.token_age_days ∧
  r'.token_age_hours = src.token_age_hours

/-- The record supplies every open-side field the enrich helper looks at. -/
def openSupplied (p : MatchedPosition) : Prop :=
  p.timestamp_open ≠ "" ∧ p.datetime_open ≠ "" ∧
  p.token ≠ "" ∧ p.token ≠ "unknown" ∧
  p.position_type ≠ "" ∧ p.position_type ≠ "unknown" ∧
  0 < p.mc_at_open ∧ 0 < p.jup_score ∧ p.token_age ≠ ""

/-- Rule 2, matched-position path: a meteora `*_unknown_open` row is enriched
from the batch's matched position when that position has an open timestamp. -/
theorem mergeRow_enrich_matched (nm : Option MatchedPosition) (no : Option OpenEvent)
    (r b : MatchedPosition) (hnm : nm = some b) (hts : b.timestamp_open ≠ "")
    (hnotfc : isFullyComplete r = false) (hmet : r.pnl_source = "meteora")
    (hcr : r.close_reason = "unknown_open" ∨ r.close_reason = "rug_unknown_open") :
    mergeRow nm no r = .inl (enrichExistingWithOpen r b) := by
  subst hnm
  simp only [mergeRow, hnotfc, Bool.false_eq_true, if_false]
  rw [if_pos ⟨hmet, hcr⟩]
  rw [if_pos hts]

/-- Rule 2, still-open path with no matched position for the id. -/
theorem mergeRow_enrich_still (no : Option OpenEvent) (r : MatchedPosition)
    (e : OpenEvent) (hno : no = some e)
    (hnotfc : isFullyComplete r = false) (hmet : r.pnl_source = "meteora")
    (hcr : r.close_reason = "unknown_open" ∨ r.close_reason = "rug_unknown_open") :
    mergeRow none no r = .inl (enrichExistingWithOpen r (openAsMatched r.position_id e)) := by
  subst hno
  simp only [mergeRow, hnotfc, Bool.false_eq_true, if_false]
  rw [if_pos ⟨hmet, hcr⟩]

/-- Rule 2, still-open path where the matched position exists but carries no
open timestamp. -/
theorem mergeRow_enrich_still_ts (nm : Option MatchedPosition) (no : Option OpenEvent)
    (r b : MatchedPosition) (e : OpenEvent)
    (hnm : nm = some b) (hts : b.timestamp_open = "") (hno : no = some e)
    (hnotfc : isFullyComplete r = false) (hmet : r.pnl_source = "meteora")
    (hcr : r.close_reason = "unknown_open" ∨ r.close_reason = "rug_unknown_open") :
    mergeRow nm no r = .inl (enrichExistingWithOpen r (openAsMatched r.position_id e)) := by
  subst hnm
  subst hno
  simp only [mergeRow, hnotfc, Bool.false_eq_true, if_false]
  rw [if_pos ⟨hmet, hcr⟩]
  rw [if_neg (by simp [hts])]

theorem enrich_openSide (r src : MatchedPosition) (hsup : openSupplied src)
    (hcr : r.close_reason = "unknown_open" ∨ r.close_reason = "rug_unknown_open") :
    openSideFrom (enrichExistingWithOpen r src) src ∧
    (enrichExistingWithOpen r src).close_reason =
      (if r.close_reason = "rug_unknown_open" then "rug" else "normal") := by
  obtain ⟨h1, h2, h3, h4, h5, h6, h7, h8, h9⟩ := hsup
  constructor
  · refine ⟨?_, ?_, ?_, ?_, ?_, ?_, ?_, ?_, ?_⟩ <;>
      simp [enrichExistingWithOpen, h1, h2, h3, h4, h5, h6, h7, h8, h9,
        ne_of_gt h7, ne_of_gt h8]
  · simp [enrichExistingWithOpen, hcr]

/-! ## Concrete rows for counterexamples and witnesses -/

/-- A persisted row whose PnL came from the Discord fallback. -/
def discordRow : MatchedPosition :=
  { target_wallet := "W1", token := "TOK", position_type := "Spot",
    sol_deployed := some 2, sol_received := some 1, pnl_sol := some (-1),
    pnl_pct := some (-50), close_reason := "normal", mc_at_open := 5,
    jup_score := 1, token_age := "", position_id := "AB12",
    pnl_source := "discord" }

/-- A new-batch position for the same id with no PnL at all. -/
def pendingNew : MatchedPosition :=
  { target_wallet := "W1", token := "TOK", position_type := "Spot",
    sol_deployed := none, sol_received := none, pnl_sol := none,
    pnl_pct := none, close_reason := "normal", mc_at_open := 5,
    jup_score := 1, token_age := "", position_id := "AB12",
    pnl_source := "pending" }

/-- A persisted meteora row that carries both timestamps yet has
`close_reason = unknown_open`. -/
def metUnknownRow : MatchedPosition :=
  { timestamp_open := "[09:00]", timestamp_close := "[11:00]",
    target_wallet := "W1", token := "Old", position_type := "Spot",
    sol_deployed := some 2, sol_received := some 1, pnl_sol := some (-1),
    pnl_pct := some (-50), close_reason := "unknown_open", mc_at_open := 5,
    jup_score := 1, token_age := "", position_id := "AB12",
    pnl_source := "meteora", meteora_deposited := some 2,
    meteora_withdrawn := some 1, meteora_fees := some 0,
    meteora_pnl := some (-1), datetime_open := "2026-01-01T09:00:00",
    datetime_close := "2026-01-01T11:00:00" }

/-- A new-batch position supplying every open-side field for the same id. -/
def openFullRow : MatchedPosition :=
  { timestamp_open := "[09:00]", timestamp_close := "[11:00]",
    target_wallet := "W1", token := "NewTok", position_type := "BidAsk",
    sol_deployed := none, sol_received := none, pnl_sol := none,
    pnl_pct := none, close_reason := "normal", mc_at_open := 7,
    jup_score := 50, token_age := "5h ago", token_age_days := some 0,
    token_age_hours := some 5, position_id := "AB12",
    pnl_source := "pending", datetime_open := "2026-01-01T09:00:00" }

/-- A persisted meteora row that is fully complete. -/
def metCompleteRow : MatchedPosition :=
  { timestamp_open := "[09:00]", timestamp_close := "[11:00]",
    target_wallet := "W1", token := "Old", position_type := "Spot",
    sol_deployed := some 2, sol_received := some 3, pnl_sol := some 1,
    pnl_pct := some 50, close_reason := "normal", mc_at_open := 5,
    jup_score := 1, token_age := "", position_id := "AB12",
    pnl_source := "meteora", meteora_deposited := some 2,
    meteora_withdrawn := some 3, meteora_fees := some 0,
    meteora_pnl := some 1, datetime_open := "2026-01-01T09:00:00",
    datetime_close := "2026-01-01T11:00:00" }

/-! ## Claim C1 -/

/-- C1 (counterexample): merge rule 4 lets the new batch win outright over a
`pending`/`discord` persisted row, whatever the new row's source. With
persisted `discordRow` (`pnl_source = discord`) and a new batch containing
`pendingNew` (`pnl_source = pending`) for the same id, the merged output is
the pending row: the rank of `pnl_source` decreased from 1 to 0, refuting
"a persisted row with pnl_source = discord is never replaced by a new-batch
position with pnl_source = pending". -/
theorem trust_monotonicity_cex :
    discordRow.pnl_source = "discord" ∧ pendingNew.pnl_source = "pending" ∧
    discordRow.position_id = pendingNew.position_id ∧
    (mergeWithExistingCsv [pendingNew] [] [discordRow]).1 = [pendingNew] ∧
    pnlSourceRank pendingNew.pnl_source < pnlSourceRank discordRow.pnl_source := by
  refine ⟨rfl, rfl, rfl, ?_, by decide⟩
  decide

/-- C1 (amended): trust monotonicity holds at the meteora tier: a persisted
row with `pnl_source = meteora` is always returned in the merged closed
output with `pnl_source` still `meteora` and every PnL and `meteora_*` field
unchanged, so its rank never decreases. (Below the meteora tier the code
treats `pending` and `discord` as one weakest tier: rule 4 replaces either
with the new batch's row outright, and a `discord` row can be replaced by a
`pending` one, as the counterexample shows.) -/
theorem meteora_trust_monotonicity
    (Bm : List MatchedPosition) (Bo : List OpenEvent) (S : List MatchedPosition)
    (k : String) (r : MatchedPosition)
    (hS : mrGet (S.filter (fun p => p.position_id ≠ "")) k = some r)
    (hmet : r.pnl_source = "meteora") :
    ∃ r', mrGet (mergeWithExistingCsv Bm Bo S).1 k = some r' ∧
      r'.pnl_source = "meteora" ∧ meteoraPreserved r' r ∧
      pnlSourceRank r.pnl_source ≤ pnlSourceRank r'.pnl_source := by
  obtain ⟨r', hrow, hpres⟩ :=
    mergeRow_meteora (mrGet (Bm.filter (fun p => p.position_id ≠ "")) k)
      (oeGet (Bo.filter (fun e => e.position_id ≠ "")) k) r hmet
  refine ⟨r', ?_, hpres.1.trans hmet, hpres, ?_⟩
  · rw [merge_fst_get, hS]
    show leftPart (mergeRow (mrGet (Bm.filter (fun p => p.position_id ≠ "")) k)
      (oeGet (Bo.filter (fun e => e.position_id ≠ "")) k) r) = some r'
    rw [hrow]
    rfl
  · rw [hpres.1]

/-- C1 (witness): the amended theorem applied to a concrete meteora row. -/
theorem meteora_trust_monotonicity_witness :
    ∃ r', mrGet (mergeWithExistingCsv [pendingNew] [] [metUnknownRow]).1 "AB12" = some r' ∧
      r'.pnl_source = "meteora" ∧ meteoraPreserved r' metUnknownRow ∧
      pnlSourceRank metUnknownRow.pnl_source ≤ pnlSourceRank r'.pnl_source :=
  meteora_trust_monotonicity [pendingNew] [] [metUnknownRow] "AB12" metUnknownRow
    (by decide) rfl

/-! ## Claim C3 -/

/-- C3 (counterexample): the merge decides "fully complete" by `close_reason`,
not by the timestamps. `metUnknownRow` has a non-empty open timestamp, a
non-empty close timestamp and `pnl_source = meteora`, yet because its
`close_reason` is `unknown_open` the merge enriches it instead of returning
it unchanged: the output row's `close_reason` is `normal` and its token was
overwritten, so the row is not field-for-field equal to the persisted one. -/
theorem fully_complete_frozen_cex :
    metUnknownRow.timestamp_open ≠ "" ∧ metUnknownRow.timestamp_close ≠ "" ∧
    metUnknownRow.datetime_open ≠ "" ∧ metUnknownRow.datetime_close ≠ "" ∧
    metUnknownRow.pnl_source = "meteora" ∧
    (mergeWithExistingCsv [openFullRow] [] [metUnknownRow]).1 ≠ [metUnknownRow] ∧
    (mergeWithExistingCsv [openFullRow] [] [metUnknownRow]).1.map
      (fun p => p.close_reason) = ["normal"] := by
  refine ⟨by decide, by decide, by decide, by decide, rfl, ?_, ?_⟩ <;> decide

/-- C3 (amended): rows the code counts as fully complete are frozen: for
every persisted row whose `close_reason` encodes both sides as known (not
`unknown_open`, `rug_unknown_open` or `still_open`) and whose `pnl_source` is
`meteora` — the condition `is_fully_complete` actually tests — the merge
returns that row in the closed output with every field unchanged, whatever
the new batch contains. -/
theorem fully_complete_frozen
    (Bm : List MatchedPosition) (Bo : List OpenEvent) (S : List MatchedPosition)
    (k : String) (r : MatchedPosition)
    (hS : mrGet (S.filter (fun p => p.position_id ≠ "")) k = some r)
    (hfc : isFullyComplete r = true) :
    mrGet (mergeWithExistingCsv Bm Bo S).1 k = some r := by
  rw [merge_fst_get, hS]
  show leftPart (mergeRow (mrGet (Bm.filter (fun p => p.position_id ≠ "")) k)
    (oeGet (Bo.filter (fun e => e.position_id ≠ "")) k) r) = some r
  rw [mergeRow_fullyComplete _ _ r hfc]
  rfl

/-- C3 (witness): the amended theorem applied to a concrete fully-complete
row merged against a batch that does carry data for its id. -/
theorem fully_complete_frozen_witness :
    mrGet (mergeWithExistingCsv [openFullRow] [] [metCompleteRow]).1 "AB12" =
      some metCompleteRow :=
  fully_complete_frozen [openFullRow] [] [metCompleteRow] "AB12" metCompleteRow
    (by decide) (by decide)

/-! ## Claim C4 -/

/-- C4: completeness absorption. A persisted row with `pnl_source = meteora`
and `close_reason ∈ {unknown_open, rug_unknown_open}`, merged against a new
batch that supplies the missing open-side fields for its id, yields a merged
record whose `close_reason` is upgraded (`rug_unknown_open → rug`,
`unknown_open → normal`), whose open-side fields (open timestamp, token,
position type, market cap, jup score, token age) come from the batch, and
whose `meteora_*`, PnL and amount fields are exactly its own
(`meteoraPreserved`). The batch may supply the data as a matched position
with a non-empty open timestamp, or — when its matched half has nothing
usable for the id — as a still-open event. -/
theorem completeness_absorption
    (Bm : List MatchedPosition) (Bo : List OpenEvent) (S : List MatchedPosition)
    (k : String) (r : MatchedPosition)
    (hS : mrGet (S.filter (fun p => p.position_id ≠ "")) k = some r)
    (hmet : r.pnl_source = "meteora")
    (hcr : r.close_reason = "unknown_open" ∨ r.close_reason = "rug_unknown_open") :
    (∀ b, mrGet (Bm.filter (fun p => p.position_id ≠ "")) k = some b →
      openSupplied b →
      ∃ r', mrGet (mergeWithExistingCsv Bm Bo S).1 k = some r' ∧
        openSideFrom r' b ∧
        r'.close_reason = (if r.close_reason = "rug_unknown_open" then "rug" else "normal") ∧
        meteoraPreserved r' r) ∧
    ((mrGet (Bm.filter (fun p => p.position_id ≠ "")) k = none ∨
        (∃ b, mrGet (Bm.filter (fun p => p.position_id ≠ "")) k = some b ∧
          b.timestamp_open = "")) →
      ∀ e, oeGet (Bo.filter (fun e => e.position_id ≠ "")) k = some e →
      openSupplied (openAsMatched k e) →
      ∃ r', mrGet (mergeWithExistingCsv Bm Bo S).1 k = some r' ∧
        openSideFrom r' (openAsMatched k e) ∧
        r'.close_reason = (if r.close_reason = "rug_unknown_open" then "rug" else "normal") ∧
        meteoraPreserved r' r) := by
  have hrk : r.position_id = k := by
    have := dictLast_eq_key _ _ k r hS
    exact this
  have hnotfc : isFullyComplete r = false := by
    rcases hcr with h | h <;> simp [isFullyComplete, h]
  constructor
  · intro b hb hsup
    have henr := enrich_openSide r b hsup hcr
    refine ⟨enrichExistingWithOpen r b, ?_, henr.1, henr.2,
      enrich_meteoraPreserved r b⟩
    rw [merge_fst_get, hS]
    show leftPart (mergeRow (mrGet (Bm.filter (fun p => p.position_id ≠ "")) k)
      (oeGet (Bo.filter (fun e => e.position_id ≠ "")) k) r) =
      some (enrichExistingWithOpen r b)
    rw [mergeRow_enrich_matched _ _ r b hb hsup.1 hnotfc hmet hcr]
    rfl
  · intro hnm e he hsup
    have henr := enrich_openSide r (openAsMatched k e) hsup hcr
    have hpid : openAsMatched r.position_id e = openAsMatched k e := by rw [hrk]
    refine ⟨enrichExistingWithOpen r (openAsMatched k e), ?_, henr.1, henr.2,
      enrich_meteoraPreserved r _⟩
    rw [merge_fst_get, hS]
    show leftPart (mergeRow (mrGet (Bm.filter (fun p => p.position_id ≠ "")) k)
      (oeGet (Bo.filter (fun e => e.position_id ≠ "")) k) r) =
      some (enrichExistingWithOpen r (openAsMatched k e))
    rcases hnm with hnone | ⟨b, hb, hts⟩
    · rw [hnone, mergeRow_enrich_still _ r e he hnotfc hmet hcr, hpid]
      rfl
    · rw [mergeRow_enrich_still_ts _ _ r b e hb hts he hnotfc hmet hcr, hpid]
      rfl

/-- C4 (witness): absorption at a concrete meteora `unknown_open` row and a
batch supplying all open-side fields through its matched half. -/
theorem completeness_absorption_witness :
    ∃ r', mrGet (mergeWithExistingCsv [openFullRow] [] [metUnknownRow]).1 "AB12" = some r' ∧
      openSideFrom r' openFullRow ∧
      r'.close_reason =
        (if metUnknownRow.close_reason = "rug_unknown_open" then "rug" else "normal") ∧
      meteoraPreserved r' metUnknownRow :=
  (completeness_absorption [openFullRow] [] [metUnknownRow] "AB12" metUnknownRow
      (by decide) rfl (Or.inl rfl)).1 openFullRow (by decide)
    (by constructor <;> simp [openFullRow] <;> decide)

/-! ## Matcher output membership -/

theorem processClose_out (openById : List (String × OpenEvent))
    (failsafeIds : List String) (liqs : List AddLiquidityEvent)
    (met : List (String × MeteoraPnlResult)) (useDiscord : Bool)
    (st : MatchState) (c : CloseEvent) (p : MatchedPosition)
    (hp : p ∈ (processClose openById failsafeIds liqs met useDiscord st c).out) :
    p ∈ st.out ∨
      p = closePositionOf openById failsafeIds liqs met st.resolved useDiscord c := by
  unfold processClose at hp
  split at hp
  · exact Or.inl hp
  · simp only [List.mem_append, List.mem_singleton] at hp
    exact hp

theorem processRug_out (openById : List (String × OpenEvent))
    (liqs : List AddLiquidityEvent) (met : List (String × MeteoraPnlResult))
    (useDiscord : Bool) (st : MatchState) (r : RugEvent) (p : MatchedPosition)
    (hp : p ∈ (processRug openById liqs met useDiscord st r).out) :
    p ∈ st.out ∨
      (∃ resolved pid, p = rugPositionOf openById liqs met resolved useDiscord r pid) ∨
      p = rugOrphanPositionOf useDiscord r := by
  unfold processRug at hp
  split at hp
  · rename_i pid _
    split at hp
    · simp only [List.mem_append, List.mem_singleton] at hp
      rcases hp with hp | hp
      · exact Or.inl hp
      · exact Or.inr (Or.inl ⟨_, pid, hp⟩)
    · simp only [List.mem_append, List.mem_singleton] at hp
      rcases hp with hp | hp
      · exact Or.inl hp
      · exact Or.inr (Or.inr hp)
  · simp only [List.mem_append, List.mem_singleton] at hp
    rcases hp with hp | hp
    · exact Or.inl hp
    · exact Or.inr (Or.inr hp)

/-- Positions of a fold over matcher steps either were already emitted or
satisfy whatever every newly appended position satisfies. -/
theorem foldl_out_pred {β : Type} (step : MatchState → β → MatchState)
    (P : MatchedPosition → Prop)
    (hstep : ∀ st x p, p ∈ (step st x).out → p ∈ st.out ∨ P p) :
    ∀ (l : List β) (st : MatchState) (p : MatchedPosition),
      p ∈ (l.foldl step st).out → p ∈ st.out ∨ P p := by
  intro l
  induction l with
  | nil =>
    intro st p hp
    exact Or.inl hp
  | cons x rest ih =>
    intro st p hp
    rcases ih (step st x) p hp with h | h
    · exact hstep st x p h
    · exact Or.inr h

/-! ## Claim C6: no fabrication -/

/-- When no remote PnL result exists for the position's id, the position is
`pending` with every monetary field absent. -/
def pendingAbsent (met : List (String × MeteoraPnlResult)) (p : MatchedPosition) : Prop :=
  lookupStr met p.position_id = none →
    p.pnl_source = "pending" ∧ p.sol_deployed = none ∧ p.sol_received = none ∧
    p.pnl_sol = none ∧ p.pnl_pct = none ∧ p.meteora_deposited = none ∧
    p.meteora_withdrawn = none ∧ p.meteora_fees = none ∧ p.meteora_pnl = none

theorem closePositionOf_pendingAbsent (openById : List (String × OpenEvent))
    (failsafeIds : List String) (liqs : List AddLiquidityEvent)
    (met : List (String × MeteoraPnlResult)) (resolved : List (String × String))
    (c : CloseEvent) :
    pendingAbsent met (closePositionOf openById failsafeIds liqs met resolved false c) := by
  unfold pendingAbsent
  rcases ho : lookupStr openById c.position_id with _ | o <;>
    rcases hm : lookupStr met c.position_id with _ | m <;>
      simp [closePositionOf, ho, hm]

theorem rugPositionOf_pendingAbsent (openById : List (String × OpenEvent))
    (liqs : List AddLiquidityEvent) (met : List (String × MeteoraPnlResult))
    (resolved : List (String × String)) (r : RugEvent) (pid : String) :
    pendingAbsent met (rugPositionOf openById liqs met resolved false r pid) := by
  unfold pendingAbsent
  rcases ho : lookupStr openById pid with _ | o <;>
    rcases hm : lookupStr met pid with _ | m <;>
      simp [rugPositionOf, ho, hm]

theorem rugOrphanPositionOf_pendingAbsent (met : List (String × MeteoraPnlResult))
    (r : RugEvent) :
    pendingAbsent met (rugOrphanPositionOf false r) := by
  unfold pendingAbsent
  simp [rugOrphanPositionOf]

/-- C6: no fabrication. With the Discord fallback disabled, every position
`match_positions` emits whose id has no remote (Meteora) PnL result carries
`pnl_source = pending` and has every monetary field absent (`none`):
`sol_deployed`, `sol_received`, `pnl_sol`, `pnl_pct` and all four `meteora_*`
fields — never zero, never an estimate. -/
theorem no_fabrication (opens : List OpenEvent) (closes : List CloseEvent)
    (rugs : List RugEvent) (failsafes : List FailsafeEvent)
    (liqs : List AddLiquidityEvent) (met : List (String × MeteoraPnlResult))
    (resolved : List (String × String)) (p : MatchedPosition)
    (hp : p ∈ (matchPositions opens closes rugs failsafes liqs met resolved false).1)
    (hnone : lookupStr met p.position_id = none) :
    p.pnl_source = "pending" ∧ p.sol_deployed = none ∧ p.sol_received = none ∧
    p.pnl_sol = none ∧ p.pnl_pct = none ∧ p.meteora_deposited = none ∧
    p.meteora_withdrawn = none ∧ p.meteora_fees = none ∧ p.meteora_pnl = none := by
  have hclose : ∀ st x q, q ∈ (processClose (opens.map (fun e => (e.position_id, e)))
      (failsafes.map (fun e => e.position_id)) liqs met false st x).out →
      q ∈ st.out ∨ pendingAbsent met q := by
    intro st x q hq
    rcases processClose_out _ _ _ _ _ st x q hq with h | h
    · exact Or.inl h
    · exact Or.inr (h ▸ closePositionOf_pendingAbsent _ _ _ _ _ x)
  have hrug : ∀ st x q, q ∈ (processRug (opens.map (fun e => (e.position_id, e)))
      liqs met false st x).out → q ∈ st.out ∨ pendingAbsent met q := by
    intro st x q hq
    rcases processRug_out _ _ _ _ st x q hq with h | ⟨res, pid, h⟩ | h
    · exact Or.inl h
    · exact Or.inr (h ▸ rugPositionOf_pendingAbsent _ _ _ _ x pid)
    · exact Or.inr (h ▸ rugOrphanPositionOf_pendingAbsent _ x)
  have hfold1 := foldl_out_pred _ (pendingAbsent met) hclose closes
    ⟨resolved, [], []⟩
  have hfold2 := foldl_out_pred _ (pendingAbsent met) hrug rugs
    (closes.foldl (processClose (opens.map (fun e => (e.position_id, e)))
      (failsafes.map (fun e => e.position_id)) liqs met false) ⟨resolved, [], []⟩)
  have hmem : p ∈ (rugs.foldl (processRug (opens.map (fun e => (e.position_id, e)))
      liqs met false)
      (closes.foldl (processClose (opens.map (fun e => (e.position_id, e)))
        (failsafes.map (fun e => e.position_id)) liqs met false)
        ⟨resolved, [], []⟩)).out := hp
  rcases hfold2 p hmem with h | h
  · rcases hfold1 p h with h1 | h1
    · simp at h1
    · exact h1 hnone
  · exact h hnone

/-- A close event with no Meteora data behind it. -/
def pendingClose : CloseEvent :=
  { timestamp := "[11:00]", target := "W1", starting_sol := 0,
    starting_usd := 0, ending_sol := 1, ending_usd := 0,
    position_id := "AB12" }

/-- C6 (witness): a concrete close event with no Meteora data and the
fallback disabled yields the all-absent pending position. -/
theorem no_fabrication_witness :
    ∃ p, (matchPositions [] [pendingClose] [] [] [] [] [] false).1 = [p] ∧
      (p.pnl_source = "pending" ∧ p.sol_deployed = none ∧ p.sol_received = none ∧
       p.pnl_sol = none ∧ p.pnl_pct = none ∧ p.meteora_deposited = none ∧
       p.meteora_withdrawn = none ∧ p.meteora_fees = none ∧ p.meteora_pnl = none) :=
  ⟨closePositionOf [] [] [] [] [] false pendingClose, by decide,
    no_fabrication [] [pendingClose] [] [] [] [] []
      (closePositionOf [] [] [] [] [] false pendingClose) (by decide) (by decide)⟩

/-! ## Claim C10: percentage division is guarded -/

/-- Every `pnl_pct` the matcher writes: absent, the constant `0`, a guarded
quotient, or a negated price drop (no division). -/
def guardedPctOnly (p : MatchedPosition) : Prop :=
  p.pnl_pct = none ∨ p.pnl_pct = some 0 ∨
  (∃ a b, p.pnl_pct = some (pctGuarded a b)) ∨ (∃ q, p.pnl_pct = some (-q))

theorem closePositionOf_guardedPct (openById : List (String × OpenEvent))
    (failsafeIds : List String) (liqs : List AddLiquidityEvent)
    (met : List (String × MeteoraPnlResult)) (resolved : List (String × String))
    (useDiscord : Bool) (c : CloseEvent) :
    guardedPctOnly (closePositionOf openById failsafeIds liqs met resolved useDiscord c) := by
  unfold guardedPctOnly closePositionOf
  rcases ho : lookupStr openById c.position_id with _ | o <;>
    rcases hm : lookupStr met c.position_id with _ | m <;>
      rcases useDiscord with _ | _ <;> simp [ho, hm]

theorem rugPositionOf_guardedPct (openById : List (String × OpenEvent))
    (liqs : List AddLiquidityEvent) (met : List (String × MeteoraPnlResult))
    (resolved : List (String × String)) (useDiscord : Bool) (r : RugEvent)
    (pid : String) :
    guardedPctOnly (rugPositionOf openById liqs met resolved useDiscord r pid) := by
  unfold guardedPctOnly rugPositionOf
  rcases ho : lookupStr openById pid with _ | o <;>
    rcases hm : lookupStr met pid with _ | m <;>
      rcases useDiscord with _ | _ <;> simp [ho, hm]

theorem rugOrphanPositionOf_guardedPct (useDiscord : Bool) (r : RugEvent) :
    guardedPctOnly (rugOrphanPositionOf useDiscord r) := by
  unfold guardedPctOnly rugOrphanPositionOf
  rcases useDiscord with _ | _ <;> simp

/-- C10: percentage division is always guarded. The checked (raising)
reading of the matcher's percentage expression never divides by zero and
agrees with the total guarded one (`pctChecked` is always `some`); the guard
returns `0` whenever the divisor — the deployed amount on the Discord path or
the Meteora deposited amount on the Meteora path — is not strictly positive;
and every `pnl_pct` on every position `match_positions` emits is either
absent, the constant `0`, such a guarded quotient, or a negated price-drop
(which involves no division at all). -/
theorem pnl_pct_guarded :
    (∀ pnl d : ℚ, pctChecked pnl d = some (pctGuarded pnl d)) ∧
    (∀ pnl d : ℚ, ¬ 0 < d → pctGuarded pnl d = 0) ∧
    (∀ (opens : List OpenEvent) (closes : List CloseEvent) (rugs : List RugEvent)
      (failsafes : List FailsafeEvent) (liqs : List AddLiquidityEvent)
      (met : List (String × MeteoraPnlResult)) (resolved : List (String × String))
      (useDiscord : Bool) (p : MatchedPosition),
      p ∈ (matchPositions opens closes rugs failsafes liqs met resolved useDiscord).1 →
      guardedPctOnly p) := by
  refine ⟨?_, ?_, ?_⟩
  · intro pnl d
    unfold pctChecked pctGuarded ddiv
    by_cases hd : 0 < d
    · rw [if_pos hd, if_pos hd, if_neg (ne_of_gt hd)]
      rfl
    · rw [if_neg hd, if_neg hd]
  · intro pnl d hd
    unfold pctGuarded
    rw [if_neg hd]
  · intro opens closes rugs failsafes liqs met resolved useDiscord p hp
    have hclose : ∀ st x q, q ∈ (processClose (opens.map (fun e => (e.position_id, e)))
        (failsafes.map (fun e => e.position_id)) liqs met useDiscord st x).out →
        q ∈ st.out ∨ guardedPctOnly q := by
      intro st x q hq
      rcases processClose_out _ _ _ _ _ st x q hq with h | h
      · exact Or.inl h
      · exact Or.inr (h ▸ closePositionOf_guardedPct _ _ _ _ _ _ x)
    have hrug : ∀ st x q, q ∈ (processRug (opens.map (fun e => (e.position_id, e)))
        liqs met useDiscord st x).out → q ∈ st.out ∨ guardedPctOnly q := by
      intro st x q hq
      rcases processRug_out _ _ _ _ st x q hq with h | ⟨res, pid, h⟩ | h
      · exact Or.inl h
      · exact Or.inr (h ▸ rugPositionOf_guardedPct _ _ _ _ _ x pid)
      · exact Or.inr (h ▸ rugOrphanPositionOf_guardedPct _ x)
    have hfold2 := foldl_out_pred _ guardedPctOnly hrug rugs
      (closes.foldl (processClose (opens.map (fun e => (e.position_id, e)))
        (failsafes.map (fun e => e.position_id)) liqs met useDiscord) ⟨resolved, [], []⟩)
    have hfold1 := foldl_out_pred _ guardedPctOnly hclose closes ⟨resolved, [], []⟩
    rcases hfold2 p hp with h | h
    · rcases hfold1 p h with h1 | h1
      · simp at h1
      · exact h1
    · exact h

/-- C10 (witness): the guard components applied at concrete values, and the
structural claim at a concrete matcher run. -/
theorem pnl_pct_guarded_witness :
    pctChecked 1 0 = some (pctGuarded 1 0) ∧ pctGuarded 1 0 = 0 ∧
    guardedPctOnly (closePositionOf [] [] [] [] [] false pendingClose) :=
  ⟨pnl_pct_guarded.1 1 0, pnl_pct_guarded.2.1 1 0 (by norm_num),
    pnl_pct_guarded.2.2 [] [pendingClose] [] [] [] [] [] false
      (closePositionOf [] [] [] [] [] false pendingClose) (by decide)⟩

/-! ## Concrete events for the matcher claims -/

/-- Open(id="AB12", deployed=2.0 SOL). -/
def sampleOpen : OpenEvent :=
  { timestamp := "[10:00]", position_type := "Spot", token_name := "BadBunny",
    token_pair := "BadBunny-SOL", target := "W1", market_cap := 1000000,
    token_age := "5h ago", jup_score := 81, target_sol := 2, your_sol := 2,
    position_id := "AB12", date := "2026-02-12" }

/-- Close(id="AB12") with `endingSol - startingSol = 2.6`. -/
def sampleClose : CloseEvent :=
  { timestamp := "[11:00]", target := "W1", starting_sol := 0,
    starting_usd := 0, ending_sol := 13 / 5, ending_usd := 0,
    position_id := "AB12", date := "2026-02-12" }

/-- Rug(id="AB12", priceDrop=40%). -/
def sampleRug : RugEvent :=
  { timestamp := "[11:30]", target := "W1", token_pair := "BadBunny-SOL",
    position_address := "", price_drop := 40, threshold := 50,
    position_id := some "AB12", date := "2026-02-12" }

/-! ## Claim C2: Close/Rug processing order and emission counts -/

/-- How many emitted positions carry a given `position_id`. -/
def pidCount (l : List MatchedPosition) (k : String) : Nat :=
  (l.filter (fun p => p.position_id = k)).length

theorem pidCount_append (a b : List MatchedPosition) (k : String) :
    pidCount (a ++ b) k = pidCount a k + pidCount b k := by
  simp [pidCount, List.filter_append]

theorem pidCount_singleton (p : MatchedPosition) (k : String) :
    pidCount [p] k = if p.position_id = k then 1 else 0 := by
  by_cases h : p.position_id = k <;> simp [pidCount, h]

theorem closePositionOf_pid (openById : List (String × OpenEvent))
    (failsafeIds : List String) (liqs : List AddLiquidityEvent)
    (met : List (String × MeteoraPnlResult)) (resolved : List (String × String))
    (useDiscord : Bool) (c : CloseEvent) :
    (closePositionOf openById failsafeIds liqs met resolved useDiscord c).position_id =
      c.position_id := by
  unfold closePositionOf
  rcases ho : lookupStr openById c.position_id with _ | o <;>
    rcases hm : lookupStr met c.position_id with _ | m <;>
      rcases useDiscord with _ | _ <;> simp [ho, hm]

theorem rugPositionOf_pid (openById : List (String × OpenEvent))
    (liqs : List AddLiquidityEvent) (met : List (String × MeteoraPnlResult))
    (resolved : List (String × String)) (useDiscord : Bool) (r : RugEvent)
    (pid : String) :
    (rugPositionOf openById liqs met resolved useDiscord r pid).position_id = pid := by
  unfold rugPositionOf
  rcases ho : lookupStr openById pid with _ | o <;>
    rcases hm : lookupStr met pid with _ | m <;>
      rcases useDiscord with _ | _ <;> simp [ho, hm]

theorem rugOrphanPositionOf_pid (useDiscord : Bool) (r : RugEvent) :
    (rugOrphanPositionOf useDiscord r).position_id = "" := by
  unfold rugOrphanPositionOf
  rcases useDiscord with _ | _ <;> simp

theorem processClose_skip (openById : List (String × OpenEvent))
    (failsafeIds : List String) (liqs : List AddLiquidityEvent)
    (met : List (String × MeteoraPnlResult)) (useDiscord : Bool)
    (st : MatchState) (c : CloseEvent) (h : c.position_id ∈ st.matched) :
    processClose openById failsafeIds liqs met useDiscord st c = st := by
  unfold processClose
  rw [if_pos h]

theorem processClose_emit (openById : List (String × OpenEvent))
    (failsafeIds : List String) (liqs : List AddLiquidityEvent)
    (met : List (String × MeteoraPnlResult)) (useDiscord : Bool)
    (st : MatchState) (c : CloseEvent) (h : c.position_id ∉ st.matched) :
    processClose openById failsafeIds liqs met useDiscord st c =
      ⟨st.resolved, c.position_id :: st.matched,
        st.out ++ [closePositionOf openById failsafeIds liqs met st.resolved useDiscord c]⟩ := by
  unfold processClose
  rw [if_neg h]

theorem processRug_some (openById : List (String × OpenEvent))
    (liqs : List AddLiquidityEvent) (met : List (String × MeteoraPnlResult))
    (useDiscord : Bool) (st : MatchState) (r : RugEvent) (pid : String)
    (hrid : r.position_id = some pid) (hne : pid ≠ "") :
    ∃ res, processRug openById liqs met useDiscord st r =
      ⟨res, pid :: st.matched,
        st.out ++ [rugPositionOf openById liqs met res useDiscord r pid]⟩ := by
  unfold processRug
  rw [hrid]
  simp only [hne, ne_eq, not_false_eq_true, if_true]
  exact ⟨_, rfl⟩

theorem processRug_orphan (openById : List (String × OpenEvent))
    (liqs : List AddLiquidityEvent) (met : List (String × MeteoraPnlResult))
    (useDiscord : Bool) (st : MatchState) (r : RugEvent)
    (hrid : r.position_id = none ∨ r.position_id = some "") :
    processRug openById liqs met useDiscord st r =
      ⟨st.resolved, st.matched, st.out ++ [rugOrphanPositionOf useDiscord r]⟩ := by
  unfold processRug
  rcases hrid with h | h <;> rw [h]
  simp

/-- Close-loop invariant: after folding the Close events, an id is consumed
iff it was already consumed or some Close event carries it, and the number of
emitted positions with that id grows by one exactly when some Close event
carries an id that was not yet consumed (duplicate Close events are
skipped). -/
theorem closeFold_count (openById : List (String × OpenEvent))
    (failsafeIds : List String) (liqs : List AddLiquidityEvent)
    (met : List (String × MeteoraPnlResult)) (useDiscord : Bool) :
    ∀ (closes : List CloseEvent) (st : MatchState) (k : String),
      ((k ∈ (closes.foldl (processClose openById failsafeIds liqs met useDiscord) st).matched ↔
        k ∈ st.matched ∨ closes.any (fun c => c.position_id = k) = true) ∧
      pidCount (closes.foldl (processClose openById failsafeIds liqs met useDiscord) st).out k =
        pidCount st.out k +
          (if k ∉ st.matched ∧ closes.any (fun c => c.position_id = k) = true then 1 else 0)) := by
  intro closes
  induction closes with
  | nil =>
    intro st k
    simp
  | cons c rest ih =>
    intro st k
    simp only [List.foldl_cons, List.any_cons, Bool.or_eq_true, decide_eq_true_eq]
    by_cases hc : c.position_id ∈ st.matched
    · rw [processClose_skip _ _ _ _ _ _ _ hc]
      obtain ⟨ih1, ih2⟩ := ih st k
      constructor
      · rw [ih1]
        by_cases hk : c.position_id = k
        · subst hk
          tauto
        · tauto
      · rw [ih2]
        congr 1
        by_cases hk : c.position_id = k
        · subst hk
          simp [hc]
        · have : (k ∉ st.matched ∧
              (rest.any (fun c => decide (c.position_id = k))) = true) ↔
              (k ∉ st.matched ∧ (c.position_id = k ∨
                (rest.any (fun c => decide (c.position_id = k))) = true)) := by
            tauto
          exact if_congr this rfl rfl
    · rw [processClose_emit _ _ _ _ _ _ _ hc]
      obtain ⟨ih1, ih2⟩ :=
        ih ⟨st.resolved, c.position_id :: st.matched,
          st.out ++ [closePositionOf openById failsafeIds liqs met st.resolved useDiscord c]⟩ k
      dsimp only at ih1 ih2
      constructor
      · rw [ih1]
        simp only [List.mem_cons]
        constructor
        · rintro ((h | h) | h)
          · exact Or.inr (Or.inl h.symm)
          · exact Or.inl h
          · exact Or.inr (Or.inr h)
        · rintro (h | h | h)
          · exact Or.inl (Or.inr h)
          · exact Or.inl (Or.inl h.symm)
          · exact Or.inr h
      · rw [ih2, pidCount_append, pidCount_singleton, closePositionOf_pid]
        by_cases hk : c.position_id = k
        · subst hk
          have hnotm : c.position_id ∈ c.position_id :: st.matched :=
            List.mem_cons_self _ _
          simp [hc, hnotm]
        · have hmem : (k ∈ c.position_id :: st.matched) ↔ k ∈ st.matched := by
            simp only [List.mem_cons]
            constructor
            · rintro (h | h)
              · exact absurd h.symm hk
              · exact h
            · exact Or.inr
          by_cases hkm : k ∈ st.matched
          · have h2 : k ∈ c.position_id :: st.matched := hmem.mpr hkm
            simp [hk, hkm, h2]
          · have h2 : k ∉ c.position_id :: st.matched := fun h => hkm (hmem.mp h)
            by_cases hrest : (rest.any (fun c => decide (c.position_id = k))) = true
            · simp [hk, hkm, h2, hrest]
            · simp [hk, hkm, h2, hrest]

/-- Rug-loop invariant: every rug event with a truthy `position_id` emits one
position with that id, with no skip for ids the Close loop already consumed;
rugs with no usable id emit only empty-id orphan positions. -/
theorem rugFold_count (openById : List (String × OpenEvent))
    (liqs : List AddLiquidityEvent) (met : List (String × MeteoraPnlResult))
    (useDiscord : Bool) :
    ∀ (rugs : List RugEvent) (st : MatchState) (k : String), k ≠ "" →
      pidCount (rugs.foldl (processRug openById liqs met useDiscord) st).out k =
        pidCount st.out k + rugs.countP (fun r => r.position_id = some k) := by
  intro rugs
  induction rugs with
  | nil =>
    intro st k _
    simp
  | cons r rest ih =>
    intro st k hk
    simp only [List.foldl_cons, List.countP_cons]
    rcases hrid : r.position_id with _ | pid
    · rw [processRug_orphan _ _ _ _ _ _ (Or.inl hrid), ih _ k hk,
        pidCount_append, pidCount_singleton, rugOrphanPositionOf_pid]
      simp [hrid, hk, Ne.symm hk]
    · by_cases hpe : pid = ""
      · subst hpe
        rw [processRug_orphan _ _ _ _ _ _ (Or.inr hrid), ih _ k hk,
          pidCount_append, pidCount_singleton, rugOrphanPositionOf_pid]
        simp [hrid, hk, Ne.symm hk]
      · obtain ⟨res, hres⟩ := processRug_some _ _ _ _ st r pid hrid hpe
        rw [hres, ih _ k hk, pidCount_append, pidCount_singleton, rugPositionOf_pid]
        by_cases hpk : pid = k
        · subst hpk
          simp [hrid]
          omega
        · simp [hrid, hpk]

/-- C2 (counterexample): an event set where the same non-empty id "AB12"
carries both a Close event and a Rug event. The matcher emits TWO positions
for that id — the Rug loop never checks whether the id was already consumed
by a Close — refuting "exactly one Position is emitted for that id". -/
theorem close_rug_precedence_cex :
    sampleClose.position_id = "AB12" ∧ sampleRug.position_id = some "AB12" ∧
    pidCount (matchPositions [sampleOpen] [sampleClose] [sampleRug]
      [] [] [] [] false).1 "AB12" = 2 := by
  refine ⟨rfl, rfl, ?_⟩
  decide

/-- C2 (amended): `match_positions` processes all Close events before any Rug
events, and duplicate Close events for an id are skipped (first Close wins),
so the Close loop emits at most one position per id; but a Rug event whose id
was already consumed by a Close is NOT skipped (the consumed-id set is only
used to exclude the id from the still-open output): for every non-empty id,
the number of emitted positions with that id is one if any Close carries it,
plus one more for every Rug event carrying it. -/
theorem close_rug_emission_count (opens : List OpenEvent) (closes : List CloseEvent)
    (rugs : List RugEvent) (failsafes : List FailsafeEvent)
    (liqs : List AddLiquidityEvent) (met : List (String × MeteoraPnlResult))
    (resolved : List (String × String)) (useDiscord : Bool) (k : String)
    (hk : k ≠ "") :
    pidCount (matchPositions opens closes rugs failsafes liqs met resolved useDiscord).1 k =
      (if closes.any (fun c => c.position_id = k) = true then 1 else 0) +
      rugs.countP (fun r => r.position_id = some k) := by
  unfold matchPositions
  simp only
  rw [rugFold_count _ _ _ _ rugs _ k hk]
  have h := (closeFold_count (opens.map (fun e => (e.position_id, e)))
    (failsafes.map (fun e => e.position_id)) liqs met useDiscord closes
    ⟨resolved, [], []⟩ k).2
  simp only [List.not_mem_nil, not_false_eq_true, true_and] at h
  rw [h]
  simp [pidCount]

/-- C2 (witness): the amended count at the concrete Close+Rug pair: one from
the Close plus one from the Rug. -/
theorem close_rug_emission_count_witness :
    pidCount (matchPositions [sampleOpen] [sampleClose] [sampleRug]
        [] [] [] [] false).1 "AB12" =
      (if [sampleClose].any (fun c => c.position_id = "AB12") = true then 1 else 0) +
      [sampleRug].countP (fun r => r.position_id = some "AB12") :=
  close_rug_emission_count [sampleOpen] [sampleClose] [sampleRug] [] [] [] [] false
    "AB12" (by decide)

/-! ## Claim C9: Discord-fallback estimation scenarios -/

/-- C9: with no remote PnL data and the fallback flag enabled:
(i) Open(id="AB12", deployed=2.0) matched to a Close whose balance delta is
2.6 yields `pnl_sol = 0.6`, `pnl_pct = 30.0`, `pnl_source = discord`,
`close_reason = normal`; (ii) the same Open matched to a Rug with a 40% price
drop yields `pnl_sol = -0.8` (minus deployed times the drop percentage),
`pnl_pct = -40.0`, `close_reason = rug`. -/
theorem discord_fallback_scenarios :
    ((matchPositions [sampleOpen] [sampleClose] [] [] [] [] [] true).1.map
      (fun p => (p.pnl_sol, p.pnl_pct, p.pnl_source, p.close_reason)) =
      [(some (3 / 5 : ℚ), some (30 : ℚ), "discord", "normal")]) ∧
    ((matchPositions [sampleOpen] [] [sampleRug] [] [] [] [] true).1.map
      (fun p => (p.pnl_sol, p.pnl_pct, p.pnl_source, p.close_reason)) =
      [(some (-(4 / 5) : ℚ), some (-40 : ℚ), "discord", "rug")]) := by
  constructor <;>
    simp only [matchPositions, List.foldl, List.map, processClose, processRug,
      closePositionOf, rugPositionOf, lookupStr, dictLast, deployedOf, pctGuarded,
      sampleOpen, sampleClose, sampleRug, List.filter, List.not_mem_nil] <;>
    norm_num

/-! ## Claim C7: no low-recovery downgrade exists -/

/-- A deposit of 2 SOL with nothing ever withdrawn and no fees claimed: a
total loss, recovering 0. -/
def totalLossEntry : TxEntry :=
  { sol_raw := 2000000000, sol_usd := 0, tok_usd := 0, price := 0 }

/-- The result `calculate_pnl` computes for the total-loss position. -/
def totalLossResult : MeteoraPnlResult :=
  { deposited_sol := 2, withdrawn_sol := 0, fees_sol := 0, deposited_usd := 0,
    withdrawn_usd := 0, fees_usd := 0, pnl_usd := 0, pnl_sol := -2 }

/-- C7 (counterexample): there is no positive minimum-recovery threshold
below which a computed result is exposed as "unavailable": for any candidate
threshold, the total-loss computation (withdrawn + fees = 0) is still
returned as a successful result, so no fixed threshold bounds the recovery
of successful results from below. -/
theorem low_recovery_threshold_cex :
    ¬ ∃ t : ℚ, 0 < t ∧ ∀ (side : Bool) (dep : List TxEntry)
      (wdr : List (TxEntry × Option ℚ)) (fee : List TxEntry) (r : MeteoraPnlResult),
      calculatePnl side (some dep) (some wdr) (some fee) = some r →
      t ≤ r.withdrawn_sol + r.fees_sol := by
  rintro ⟨t, ht, h⟩
  have hle := h true [totalLossEntry] [] [] totalLossResult (by
    simp only [calculatePnl, List.foldl, stepTx, txSolEquiv, totalLossEntry,
      totalLossResult, Bool.not_true]
    norm_num)
  have hzero : totalLossResult.withdrawn_sol + totalLossResult.fees_sol = 0 := by
    show (0 : ℚ) + 0 = 0
    norm_num
  rw [hzero] at hle
  exact absurd ht (not_lt.mpr hle)

/-- C7 (amended): no minimum-recovery downgrade exists in the code.
`calculate_pnl` returns a result whenever the SOL side is known and all three
datasets were fetched, even when `withdrawn + fees` recovers 0 — below any
candidate positive threshold — and the Matcher, given any present result for
an id, marks the position `pnl_source = meteora` rather than falling back. -/
theorem low_recovery_no_downgrade (t : ℚ) (ht : 0 < t) :
    calculatePnl true (some [totalLossEntry]) (some []) (some []) =
      some totalLossResult ∧
    totalLossResult.withdrawn_sol + totalLossResult.fees_sol = 0 ∧
    totalLossResult.withdrawn_sol + totalLossResult.fees_sol < t ∧
    ((matchPositions [sampleOpen] [sampleClose] [] [] []
        [("AB12", totalLossResult)] [] false).1.map (fun p => p.pnl_source) =
      ["meteora"]) := by
  refine ⟨?_, ?_, ?_, ?_⟩
  · simp only [calculatePnl, List.foldl, stepTx, txSolEquiv, totalLossEntry,
      totalLossResult, Bool.not_true]
    norm_num
  · show (0 : ℚ) + 0 = 0
    norm_num
  · show (0 : ℚ) + 0 < t
    norm_num [ht]
  · simp only [matchPositions, List.foldl, List.map, processClose, closePositionOf,
      lookupStr, dictLast, deployedOf, sampleOpen, sampleClose, List.filter,
      List.not_mem_nil]
    norm_num

/-- C7 (witness): the amended theorem at the concrete threshold 1/100. -/
theorem low_recovery_no_downgrade_witness :
    calculatePnl true (some [totalLossEntry]) (some []) (some []) =
      some totalLossResult ∧
    totalLossResult.withdrawn_sol + totalLossResult.fees_sol = 0 ∧
    totalLossResult.withdrawn_sol + totalLossResult.fees_sol < 1 / 100 ∧
    ((matchPositions [sampleOpen] [sampleClose] [] [] []
        [("AB12", totalLossResult)] [] false).1.map (fun p => p.pnl_source) =
      ["meteora"]) :=
  low_recovery_no_downgrade (1 / 100) (by norm_num)

/-! ## Claim C8: PnL conservation -/

theorem pnl_of_sums (r : MeteoraPnlResult)
    (hrel : r.pnl_sol = r.withdrawn_sol + r.fees_sol - r.deposited_sol)
    (h1 : r.deposited_sol = 2) (h2 : r.withdrawn_sol = 3 / 2)
    (h3 : r.fees_sol = 1 / 10) : r.pnl_sol = -(2 / 5) := by
  rw [hrel, h1, h2, h3]
  norm_num

/-- C8: every successful PnL calculation satisfies
`pnl_sol = withdrawn_sol + fees_sol - deposited_sol` and
`pnl_usd = withdrawn_usd + fees_usd - deposited_usd` exactly, in exact
(decimal) arithmetic; in particular a result whose deposits sum to 2.0,
withdrawals to 1.5 and fees to 0.1 has `pnl_sol` exactly `-0.4`. -/
theorem pnl_conservation (side : Bool) (dep : List TxEntry)
    (wdr : List (TxEntry × Option ℚ)) (fee : List TxEntry) (r : MeteoraPnlResult)
    (h : calculatePnl side (some dep) (some wdr) (some fee) = some r) :
    r.pnl_sol = r.withdrawn_sol + r.fees_sol - r.deposited_sol ∧
    r.pnl_usd = r.withdrawn_usd + r.fees_usd - r.deposited_usd ∧
    (r.deposited_sol = 2 ∧ r.withdrawn_sol = 3 / 2 ∧ r.fees_sol = 1 / 10 →
      r.pnl_sol = -(2 / 5)) := by
  rcases side with _ | _
  · simp [calculatePnl] at h
  · simp only [calculatePnl, Bool.not_true, Bool.false_eq_true, if_false] at h
    injection h with h'
    subst h'
    exact ⟨rfl, rfl, fun h => pnl_of_sums _ rfl h.1 h.2.1 h.2.2⟩

/-- Deposits summing to 2.0 SOL-equivalent. -/
def depositEntry : TxEntry := { sol_raw := 2000000000, sol_usd := 0, tok_usd := 0, price := 0 }

/-- Withdrawals summing to 1.5 SOL-equivalent. -/
def withdrawEntry : TxEntry := { sol_raw := 1500000000, sol_usd := 0, tok_usd := 0, price := 0 }

/-- Fees summing to 0.1 SOL-equivalent. -/
def feeEntry : TxEntry := { sol_raw := 100000000, sol_usd := 0, tok_usd := 0, price := 0 }

/-- The result of the deposits-2.0 / withdrawals-1.5 / fees-0.1 computation. -/
def conservationResult : MeteoraPnlResult :=
  { deposited_sol := 2, withdrawn_sol := 3 / 2, fees_sol := 1 / 10,
    deposited_usd := 0, withdrawn_usd := 0, fees_usd := 0, pnl_usd := 0,
    pnl_sol := -(2 / 5) }

theorem conservation_calc :
    calculatePnl true (some [depositEntry]) (some [(withdrawEntry, none)])
      (some [feeEntry]) = some conservationResult := by
  simp only [calculatePnl, List.foldl, stepTx, txSolEquiv, depositEntry,
    withdrawEntry, feeEntry, conservationResult, Bool.not_true]
  norm_num

/-- C8 (witness): conservation at the concrete deposits-2.0 / withdrawals-1.5
/ fees-0.1 computation, whose PnL is exactly -0.4 with no rounding drift. -/
theorem pnl_conservation_witness :
    ∃ r, calculatePnl true (some [depositEntry]) (some [(withdrawEntry, none)])
        (some [feeEntry]) = some r ∧
      r.pnl_sol = r.withdrawn_sol + r.fees_sol - r.deposited_sol ∧
      r.deposited_sol = 2 ∧ r.withdrawn_sol = 3 / 2 ∧ r.fees_sol = 1 / 10 ∧
      r.pnl_sol = -(2 / 5) := by
  refine ⟨conservationResult, conservation_calc,
    (pnl_conservation true [depositEntry] [(withdrawEntry, none)] [feeEntry]
      conservationResult conservation_calc).1, rfl, rfl, rfl, ?_⟩
  show -((2 : ℚ) / 5) = -(2 / 5)
  rfl


/-! ## Claim C5 -/

/-- Elements of `takeWhile p` satisfy `p`. -/
theorem mem_takeWhile_pred (p : Char → Bool) (l : List Char) (c : Char)
    (h : c ∈ l.takeWhile p) : p c = true := by
  induction l with
  | nil => simp at h
  | cons x rest ih =>
    rw [List.takeWhile_cons] at h
    by_cases hx : p x = true
    · rw [if_pos hx] at h
      rcases List.mem_cons.mp h with h1 | h1
      · rwa [h1]
      · exact ih h1
    · rw [if_neg hx] at h
      simp at h

theorem takeWhile_not_mem (p : Char → Bool) (hp : p 'T' = false) (a : List Char) :
    'T' ∉ a.takeWhile p := fun hmem => by
  have h := mem_takeWhile_pred p a 'T' hmem
  rw [hp] at h
  exact Bool.false_ne_true h

theorem takeWhile_all_eq (p : Char → Bool) (l : List Char) (h : ∀ c ∈ l, p c = true) :
    l.takeWhile p = l := by
  induction l with
  | nil => rfl
  | cons x rest ih =>
    rw [List.takeWhile_cons, if_pos (h x (List.mem_cons_self x rest)),
      ih (fun c hc => h c (List.mem_cons_of_mem x hc))]

theorem takeWhile_idem (p : Char → Bool) (l : List Char) :
    (l.takeWhile p).takeWhile p = l.takeWhile p :=
  takeWhile_all_eq p _ (fun c hc => mem_takeWhile_pred p l c hc)

/-- `takeWhile` stops at the separator, so the tail after it is irrelevant. -/
theorem takeWhile_T_append (p : Char → Bool) (hp : p 'T' = false) (a b : List Char) :
    (a ++ 'T' :: b).takeWhile p = a.takeWhile p := by
  induction a with
  | nil => simp [List.takeWhile_cons, hp]
  | cons x rest ih =>
    simp only [List.cons_append, List.takeWhile_cons, ih]

theorem string_T_data : ("T" : String) = String.mk ['T'] := rfl

theorem string_mk_append (a b : List Char) :
    String.mk a ++ String.mk b = String.mk (a ++ b) := rfl

theorem string_append_T (a b : List Char) :
    String.mk a ++ "T" ++ String.mk b = String.mk (a ++ 'T' :: b) := by
  rw [string_T_data, string_mk_append, string_mk_append, List.append_assoc,
    List.singleton_append]

theorem string_T_cons (b : List Char) :
    "T" ++ String.mk b = String.mk ('T' :: b) := by
  rw [string_T_data, string_mk_append, List.singleton_append]

theorem beforeT_no_T (s : String) : 'T' ∉ (beforeT s).toList := by
  simp only [beforeT]
  exact takeWhile_not_mem _ (by decide) s.toList

theorem beforeT_idem (s : String) : beforeT (beforeT s) = beforeT s := by
  simp only [beforeT]
  congr 1
  exact takeWhile_idem _ s.toList

/-- Python `(a + "T" + b).split('T')[0] = a.split('T')[0]`. -/
theorem beforeT_append_T (s t : String) : beforeT (s ++ "T" ++ t) = beforeT s := by
  rcases s with ⟨a⟩
  rcases t with ⟨b⟩
  rw [string_append_T]
  simp only [beforeT]
  congr 1
  exact takeWhile_T_append _ (by decide) a b

theorem beforeT_T_head (t : String) : beforeT ("T" ++ t) = "" := by
  rcases t with ⟨b⟩
  rw [string_T_cons]
  simp only [beforeT]
  show String.mk (List.takeWhile _ ('T' :: b)) = ""
  rw [List.takeWhile_cons, if_neg (by decide)]

theorem T_append_ne (s t : String) : s ++ "T" ++ t ≠ "" := by
  rcases s with ⟨a⟩
  rcases t with ⟨b⟩
  rw [string_append_T]
  intro hc
  have h2 : a ++ 'T' :: b = ([] : List Char) := congrArg String.data hc
  simp at h2

theorem T_append_mem (s t : String) : 'T' ∈ (s ++ "T" ++ t).toList := by
  rcases s with ⟨a⟩
  rcases t with ⟨b⟩
  rw [string_append_T]
  show 'T' ∈ a ++ 'T' :: b
  simp

theorem T_head_ne (t : String) : ("T" ++ t : String) ≠ "" := by
  rcases t with ⟨b⟩
  rw [string_T_cons]
  intro hc
  have h2 : 'T' :: b = ([] : List Char) := congrArg String.data hc
  simp at h2

theorem T_head_mem (t : String) : 'T' ∈ ("T" ++ t).toList := by
  rcases t with ⟨b⟩
  rw [string_T_cons]
  show 'T' ∈ 'T' :: b
  simp

/-- The date component `rowToOpenEvent` extracts from the ISO datetime
`makeIsoDatetime d t`, in closed form: empty when the time pattern is absent,
otherwise the part of `d` before its first `'T'`. -/
theorem beforeT_makeIso (d t : String) :
    (if makeIsoDatetime d t ≠ "" ∧ 'T' ∈ (makeIsoDatetime d t).toList then
        beforeT (makeIsoDatetime d t) else "") =
      (match findTimeMatch t.toList with
       | none => ""
       | some _ => beforeT d) := by
  rcases hf : findTimeMatch t.toList with _ | hm
  · have hf2 : findTimeMatch t.data = none := hf
    have hM : makeIsoDatetime d t = "" := by simp [makeIsoDatetime, hf2]
    rw [hM]
    rw [if_neg (by simp)]
  · obtain ⟨h, m⟩ := hm
    have hf2 : findTimeMatch t.data = some (h, m) := hf
    by_cases hd : d = ""
    · subst hd
      have hM : makeIsoDatetime "" t = "T" ++ (h ++ ":" ++ m ++ ":00") := by
        simp [makeIsoDatetime, hf2]
      rw [hM, if_pos ⟨T_head_ne _, T_head_mem _⟩, beforeT_T_head]
      rfl
    · have hM : makeIsoDatetime d t = d ++ "T" ++ (h ++ ":" ++ m ++ ":00") := by
        simp [makeIsoDatetime, hf2, hd]
      rw [hM, if_pos ⟨T_append_ne _ _, T_append_mem _ _⟩, beforeT_append_T]

attribute [ext] OpenEvent

/-- Round trip of the pipeline's still-open persistence: converting a
persisted still-open row (as `openRowOf` writes it) back into an open event
and persisting it again loses nothing. -/
theorem rowToOpen_openRow_fix (e : OpenEvent) :
    rowToOpenEvent (openRowOf (rowToOpenEvent (openRowOf e))) =
      rowToOpenEvent (openRowOf e) := by
  have key : ∀ e2 : OpenEvent, (rowToOpenEvent (openRowOf e2)).date =
      (match findTimeMatch e2.timestamp.toList with
       | none => ""
       | some _ => beforeT e2.date) := by
    intro e2
    exact beforeT_makeIso e2.date e2.timestamp
  apply OpenEvent.ext <;> try rfl
  rw [key (rowToOpenEvent (openRowOf e))]
  show (match findTimeMatch e.timestamp.toList with
        | none => ""
        | some _ => beforeT (rowToOpenEvent (openRowOf e)).date) =
      (rowToOpenEvent (openRowOf e)).date
  rw [key e]
  rcases hf : findTimeMatch e.timestamp.toList with _ | p
  · rfl
  · show beforeT (beforeT e.date) = beforeT e.date
    exact beforeT_idem e.date

theorem mrGet_filter_id (l : List MatchedPosition) (k : String) (hk : k ≠ "") :
    mrGet (l.filter (fun r => r.position_id ≠ "")) k = mrGet l k := by
  simp only [mrGet]
  apply dictLast_filter_true
  intro x _ hxk
  simp [hxk, hk]

theorem mrGet_filter_none (l : List MatchedPosition) :
    mrGet (l.filter (fun r => r.position_id ≠ "")) "" = none := by
  simp only [mrGet]
  apply dictLast_filter_false
  intro x _ hxk
  simp [hxk]

theorem openRowOf_notFullyComplete (e : OpenEvent) :
    isFullyComplete (openRowOf e) = false := rfl

/-- Enriching a meteora `*_unknown_open` row makes it fully complete: its
close reason becomes `rug` or `normal` and its source stays `meteora`. -/
theorem isFullyComplete_enrich (r np : MatchedPosition)
    (hmet : r.pnl_source = "meteora")
    (hcr : r.close_reason = "unknown_open" ∨ r.close_reason = "rug_unknown_open") :
    isFullyComplete (enrichExistingWithOpen r np) = true := by
  have hsrc : (enrichExistingWithOpen r np).pnl_source = r.pnl_source := rfl
  have hcr2 : (enrichExistingWithOpen r np).close_reason =
      (if r.close_reason = "rug_unknown_open" then "rug" else "normal") := by
    show (if r.close_reason = "unknown_open" ∨ r.close_reason = "rug_unknown_open" then
        if r.close_reason = "rug_unknown_open" then "rug" else "normal"
      else r.close_reason) = _
    rw [if_pos hcr]
  simp only [isFullyComplete, hsrc, hmet, hcr2]
  by_cases h2 : r.close_reason = "rug_unknown_open"
  · rw [if_pos h2]
    decide
  · rw [if_neg h2]
    decide

/-- A batch position that reaches the persisted store is a merge fixpoint:
merging it against the batch it came from keeps it unchanged (for a
meteora `*_unknown_open` batch row this needs the row to carry no open
timestamp, which is how the matcher builds such rows). -/
theorem mergeRow_self (b : MatchedPosition)
    (H2b : b.pnl_source = "meteora" →
      (b.close_reason = "unknown_open" ∨ b.close_reason = "rug_unknown_open") →
      b.timestamp_open = "") :
    mergeRow (some b) none b = Sum.inl b := by
  by_cases hfc : isFullyComplete b = true
  · exact mergeRow_fullyComplete _ _ _ hfc
  · have hfc0 : isFullyComplete b = false := by simpa using hfc
    by_cases hmu : b.pnl_source = "meteora" ∧
        (b.close_reason = "unknown_open" ∨ b.close_reason = "rug_unknown_open")
    · have hts := H2b hmu.1 hmu.2
      have hts2 : ¬(b.timestamp_open ≠ "") := by simp [hts]
      simp only [mergeRow, hfc0, Bool.false_eq_true, if_false]
      rw [if_pos hmu, if_neg hts2]
    · simp only [mergeRow, hfc0, Bool.false_eq_true, if_false]
      rw [if_neg hmu]
      by_cases hm3 : b.pnl_source = "meteora"
      · rw [if_pos hm3]
      · rw [if_neg hm3]

/-- A persisted still-open row meets a still-open event for the same id in
the batch: the merge keeps (re-emits) the batch's event. -/
theorem mergeRow_openRow_some (e2 e3 : OpenEvent) :
    mergeRow none (some e2) (openRowOf e3) = Sum.inr e2 := by
  have h1 : ¬((openRowOf e3).pnl_source = "meteora" ∧
      ((openRowOf e3).close_reason = "unknown_open" ∨
        (openRowOf e3).close_reason = "rug_unknown_open")) := by
    simp [openRowOf]
  have h2 : ¬((openRowOf e3).pnl_source = "meteora") := by
    simp [openRowOf]
  simp only [mergeRow, openRowOf_notFullyComplete, Bool.false_eq_true, if_false]
  rw [if_neg h1, if_neg h2]

/-- A persisted still-open row with nothing for its id in the batch converts
back to the open event it was persisted from. -/
theorem mergeRow_openRow_none (e3 : OpenEvent)
    (hrt : rowToOpenEvent (openRowOf e3) = e3) :
    mergeRow none none (openRowOf e3) = Sum.inr e3 := by
  have h1 : ¬((openRowOf e3).pnl_source = "meteora" ∧
      ((openRowOf e3).close_reason = "unknown_open" ∨
        (openRowOf e3).close_reason = "rug_unknown_open")) := by
    simp [openRowOf]
  have h2 : ¬((openRowOf e3).pnl_source = "meteora") := by
    simp [openRowOf]
  simp only [mergeRow, openRowOf_notFullyComplete, Bool.false_eq_true, if_false]
  rw [if_neg h1, if_neg h2,
    if_pos (show (openRowOf e3).close_reason = "still_open" from rfl), hrt]

/-- Rows the merge keeps in the closed list are merge fixpoints: running the
same batch against the merged row returns it unchanged, provided the batch
never carries a matched position and a still-open event for one id and its
meteora `*_unknown_open` rows carry no open timestamp. -/
theorem mergeRow_fix_inl (m : Option MatchedPosition) (o : Option OpenEvent)
    (r r2 : MatchedPosition)
    (hdisj : m = none ∨ o = none)
    (H2m : ∀ b, m = some b → b.pnl_source = "meteora" →
      (b.close_reason = "unknown_open" ∨ b.close_reason = "rug_unknown_open") →
      b.timestamp_open = "")
    (h : mergeRow m o r = Sum.inl r2) :
    mergeRow m o r2 = Sum.inl r2 := by
  by_cases hfc : isFullyComplete r = true
  · rw [mergeRow_fullyComplete m o r hfc] at h
    injection h with h1
    subst h1
    exact mergeRow_fullyComplete m o r hfc
  · have hfc0 : isFullyComplete r = false := by simpa using hfc
    by_cases hmu : r.pnl_source = "meteora" ∧
        (r.close_reason = "unknown_open" ∨ r.close_reason = "rug_unknown_open")
    · rcases m with _ | b
      · rcases o with _ | e
        · have h2 : mergeRow none none r = Sum.inl r := by
            simp only [mergeRow, hfc0, Bool.false_eq_true, if_false]
            rw [if_pos hmu]
          rw [h2] at h
          injection h with h1
          subst h1
          exact h2
        · rw [mergeRow_enrich_still (some e) r e rfl hfc0 hmu.1 hmu.2] at h
          injection h with h1
          subst h1
          exact mergeRow_fullyComplete _ _ _
            (isFullyComplete_enrich r _ hmu.1 hmu.2)
      · have ho : o = none := by
          rcases hdisj with h1 | h1
          · exact absurd h1 (by simp)
          · exact h1
        subst ho
        by_cases hts : b.timestamp_open = ""
        · have hts2 : ¬(b.timestamp_open ≠ "") := by simp [hts]
          have h2 : mergeRow (some b) none r = Sum.inl r := by
            simp only [mergeRow, hfc0, Bool.false_eq_true, if_false]
            rw [if_pos hmu, if_neg hts2]
          rw [h2] at h
          injection h with h1
          subst h1
          exact h2
        · rw [mergeRow_enrich_matched (some b) none r b rfl hts hfc0
            hmu.1 hmu.2] at h
          injection h with h1
          subst h1
          exact mergeRow_fullyComplete _ _ _
            (isFullyComplete_enrich r _ hmu.1 hmu.2)
    · by_cases hm3 : r.pnl_source = "meteora"
      · have h2 : mergeRow m o r = Sum.inl r := by
          simp only [mergeRow, hfc0, Bool.false_eq_true, if_false]
          rw [if_neg hmu, if_pos hm3]
        rw [h2] at h
        injection h with h1
        subst h1
        exact h2
      · rcases m with _ | b
        · rcases o with _ | e
          · by_cases hso : r.close_reason = "still_open"
            · have h2 : mergeRow none none r = Sum.inr (rowToOpenEvent r) := by
                simp only [mergeRow, hfc0, Bool.false_eq_true, if_false]
                rw [if_neg hmu, if_neg hm3, if_pos hso]
              rw [h2] at h
              exact Sum.noConfusion h
            · have h2 : mergeRow none none r = Sum.inl r := by
                simp only [mergeRow, hfc0, Bool.false_eq_true, if_false]
                rw [if_neg hmu, if_neg hm3, if_neg hso]
              rw [h2] at h
              injection h with h1
              subst h1
              exact h2
          · have h2 : mergeRow none (some e) r = Sum.inr e := by
              simp only [mergeRow, hfc0, Bool.false_eq_true, if_false]
              rw [if_neg hmu, if_neg hm3]
            rw [h2] at h
            exact Sum.noConfusion h
        · have h2 : mergeRow (some b) o r = Sum.inl b := by
            simp only [mergeRow, hfc0, Bool.false_eq_true, if_false]
            rw [if_neg hmu, if_neg hm3]
          rw [h2] at h
          injection h with h1
          subst h1
          have ho : o = none := by
            rcases hdisj with h1 | h1
            · exact absurd h1 (by simp)
            · exact h1
          subst ho
          exact mergeRow_self b (H2m b rfl)

/-- Events the merge keeps in the still-open list are merge fixpoints: the
persisted row written for such an event converts back to the same event on
the next run of the same batch. -/
theorem mergeRow_fix_inr (m : Option MatchedPosition) (o : Option OpenEvent)
    (r : MatchedPosition) (e2 : OpenEvent)
    (hrt : r.close_reason = "still_open" →
      rowToOpenEvent (openRowOf (rowToOpenEvent r)) = rowToOpenEvent r)
    (h : mergeRow m o r = Sum.inr e2) :
    mergeRow m o (openRowOf e2) = Sum.inr e2 := by
  by_cases hfc : isFullyComplete r = true
  · rw [mergeRow_fullyComplete m o r hfc] at h
    exact Sum.noConfusion h
  · have hfc0 : isFullyComplete r = false := by simpa using hfc
    by_cases hmu : r.pnl_source = "meteora" ∧
        (r.close_reason = "unknown_open" ∨ r.close_reason = "rug_unknown_open")
    · rcases m with _ | b
      · rcases o with _ | e
        · have h2 : mergeRow none none r = Sum.inl r := by
            simp only [mergeRow, hfc0, Bool.false_eq_true, if_false]
            rw [if_pos hmu]
          rw [h2] at h
          exact Sum.noConfusion h
        · rw [mergeRow_enrich_still (some e) r e rfl hfc0 hmu.1 hmu.2] at h
          exact Sum.noConfusion h
      · by_cases hts : b.timestamp_open = ""
        · rcases o with _ | e
          · have hts2 : ¬(b.timestamp_open ≠ "") := by simp [hts]
            have h2 : mergeRow (some b) none r = Sum.inl r := by
              simp only [mergeRow, hfc0, Bool.false_eq_true, if_false]
              rw [if_pos hmu, if_neg hts2]
            rw [h2] at h
            exact Sum.noConfusion h
          · rw [mergeRow_enrich_still_ts (some b) (some e) r b e rfl hts rfl
              hfc0 hmu.1 hmu.2] at h
            exact Sum.noConfusion h
        · rw [mergeRow_enrich_matched (some b) o r b rfl hts hfc0
            hmu.1 hmu.2] at h
          exact Sum.noConfusion h
    · by_cases hm3 : r.pnl_source = "meteora"
      · have h2 : mergeRow m o r = Sum.inl r := by
          simp only [mergeRow, hfc0, Bool.false_eq_true, if_false]
          rw [if_neg hmu, if_pos hm3]
        rw [h2] at h
        exact Sum.noConfusion h
      · rcases m with _ | b
        · rcases o with _ | e
          · by_cases hso : r.close_reason = "still_open"
            · have h2 : mergeRow none none r = Sum.inr (rowToOpenEvent r) := by
                simp only [mergeRow, hfc0, Bool.false_eq_true, if_false]
                rw [if_neg hmu, if_neg hm3, if_pos hso]
              rw [h2] at h
              injection h with h1
              subst h1
              exact mergeRow_openRow_none (rowToOpenEvent r) (hrt hso)
            · have h2 : mergeRow none none r = Sum.inl r := by
                simp only [mergeRow, hfc0, Bool.false_eq_true, if_false]
                rw [if_neg hmu, if_neg hm3, if_neg hso]
              rw [h2] at h
              exact Sum.noConfusion h
          · have h2 : mergeRow none (some e) r = Sum.inr e := by
              simp only [mergeRow, hfc0, Bool.false_eq_true, if_false]
              rw [if_neg hmu, if_neg hm3]
            rw [h2] at h
            injection h with h1
            subst h1
            exact mergeRow_openRow_some e e
        · have h2 : mergeRow (some b) o r = Sum.inl b := by
            simp only [mergeRow, hfc0, Bool.false_eq_true, if_false]
            rw [if_neg hmu, if_neg hm3]
          rw [h2] at h
          exact Sum.noConfusion h

/-- A meteora `*_unknown_open` row as the matcher emits it for a close or
rug without a matching open: no open timestamp, placeholder open-side data. -/
def idemMetRow : MatchedPosition :=
  { timestamp_open := "", timestamp_close := "[11:00]",
    target_wallet := "W1", token := "unknown", position_type := "unknown",
    sol_deployed := some 2, sol_received := some 1, pnl_sol := some (-1),
    pnl_pct := some (-50), close_reason := "unknown_open", mc_at_open := 0,
    jup_score := 0, token_age := "", position_id := "AB12",
    pnl_source := "meteora", meteora_deposited := some 2,
    meteora_withdrawn := some 1, meteora_fees := some 0,
    meteora_pnl := some (-1), datetime_close := "2026-01-01T11:00:00" }

/-- A still-open event for the same id carrying full open-side data. -/
def idemOpen : OpenEvent :=
  { timestamp := "[09:00]", position_type := "Spot", token_name := "TOK",
    token_pair := "TOK-SOL", target := "W1", market_cap := 5,
    token_age := "5h ago", jup_score := 80, target_sol := 2, your_sol := 2,
    position_id := "AB12", date := "2026-01-01" }

/-- C5 (counterexample): merging the same batch twice is not idempotent when
the batch overlaps itself. With persisted state `[discordRow]` and a batch
carrying both the meteora `unknown_open` position `idemMetRow` and the
still-open event `idemOpen` for the same id, the first merge replaces the
discord row by `idemMetRow` (rule 4); the second merge of the same batch
then enriches the row it just inserted from the batch's still-open event
(rule 2), upgrading `close_reason` from `unknown_open` to `normal`, so
`merge(merge(S,B),B) ≠ merge(S,B)`. -/
theorem merge_idempotence_cex :
    mergeWithExistingCsv [idemMetRow] [idemOpen]
        ((mergeWithExistingCsv [idemMetRow] [idemOpen] [discordRow]).1 ++
          ((mergeWithExistingCsv [idemMetRow] [idemOpen] [discordRow]).2).map openRowOf) ≠
      mergeWithExistingCsv [idemMetRow] [idemOpen] [discordRow] ∧
    (mergeWithExistingCsv [idemMetRow] [idemOpen] [discordRow]).1 = [idemMetRow] ∧
    ((mergeWithExistingCsv [idemMetRow] [idemOpen]
        ((mergeWithExistingCsv [idemMetRow] [idemOpen] [discordRow]).1 ++
          ((mergeWithExistingCsv [idemMetRow] [idemOpen] [discordRow]).2).map openRowOf)).1.map
      (fun r => r.close_reason)) = ["normal"] ∧
    idemMetRow.close_reason = "unknown_open" :=
  ⟨by decide, by decide, by decide, rfl⟩

/-- C5 (amended): merge is idempotent per position id once the batch does not
overlap itself: if no id carries both a matched position and a still-open
event in the batch (H1, the matcher emits each id on exactly one side), the
batch's meteora `*_unknown_open` rows carry no open timestamp (H2, how the
matcher builds them), and persisted still-open rows survive the row/event
round trip (H3, true of every row the pipeline itself persists, by
`rowToOpen_openRow_fix`), then re-merging the same batch into the persisted
result — merged closed rows plus the merged still-open events written back
as rows — changes neither the closed-position entry nor the still-open
entry of any position id. -/
theorem merge_idempotent (Bm : List MatchedPosition) (Bo : List OpenEvent)
    (S : List MatchedPosition)
    (H1 : ∀ b ∈ Bm, ∀ e ∈ Bo, b.position_id ≠ e.position_id)
    (H2 : ∀ b ∈ Bm, b.pnl_source = "meteora" →
      (b.close_reason = "unknown_open" ∨ b.close_reason = "rug_unknown_open") →
      b.timestamp_open = "")
    (H3 : ∀ r ∈ S, r.close_reason = "still_open" →
      rowToOpenEvent (openRowOf (rowToOpenEvent r)) = rowToOpenEvent r)
    (k : String) :
    mrGet (mergeWithExistingCsv Bm Bo
        ((mergeWithExistingCsv Bm Bo S).1 ++
          ((mergeWithExistingCsv Bm Bo S).2).map openRowOf)).1 k =
      mrGet (mergeWithExistingCsv Bm Bo S).1 k ∧
    oeGet (mergeWithExistingCsv Bm Bo
        ((mergeWithExistingCsv Bm Bo S).1 ++
          ((mergeWithExistingCsv Bm Bo S).2).map openRowOf)).2 k =
      oeGet (mergeWithExistingCsv Bm Bo S).2 k := by
  by_cases hk : k = ""
  · subst hk
    constructor
    · rw [merge_fst_get, merge_fst_get]
      simp only [mrGet_filter_none]
    · rw [merge_snd_get, merge_snd_get]
      simp only [mrGet_filter_none]
  · have hS2 : mrGet (((mergeWithExistingCsv Bm Bo S).1 ++
          ((mergeWithExistingCsv Bm Bo S).2).map openRowOf).filter
            (fun r => r.position_id ≠ "")) k =
        orO ((oeGet (mergeWithExistingCsv Bm Bo S).2 k).map openRowOf)
          (mrGet (mergeWithExistingCsv Bm Bo S).1 k) := by
      rw [mrGet_filter_id _ _ hk]
      simp only [mrGet, oeGet]
      rw [dictLast_append]
      rw [dictLast_map (fun e : OpenEvent => e.position_id)
        (fun p : MatchedPosition => p.position_id) openRowOf
        ((mergeWithExistingCsv Bm Bo S).2) k (fun x _ => rfl)]
    have hdisjk : mrGet (Bm.filter (fun p => p.position_id ≠ "")) k = none ∨
        oeGet (Bo.filter (fun e => e.position_id ≠ "")) k = none := by
      rcases hb : mrGet (Bm.filter (fun p => p.position_id ≠ "")) k with _ | b
      · exact Or.inl rfl
      · refine Or.inr ?_
        have hb2 : dictLast (fun p : MatchedPosition => p.position_id)
            (Bm.filter (fun p => p.position_id ≠ "")) k = some b := hb
        have hbmem : b ∈ Bm := List.mem_of_mem_filter (dictLast_mem _ _ _ _ hb2)
        have hbk : b.position_id = k := dictLast_eq_key _ _ _ _ hb2
        show dictLast (fun e : OpenEvent => e.position_id)
          (Bo.filter (fun e => e.position_id ≠ "")) k = none
        rw [dictLast_eq_none_iff]
        intro e he hek
        exact H1 b hbmem e (List.mem_of_mem_filter he) (hbk.trans hek.symm)
    have H2k : ∀ b, mrGet (Bm.filter (fun p => p.position_id ≠ "")) k = some b →
        b.pnl_source = "meteora" →
        (b.close_reason = "unknown_open" ∨ b.close_reason = "rug_unknown_open") →
        b.timestamp_open = "" := by
      intro b hb
      have hb2 : dictLast (fun p : MatchedPosition => p.position_id)
          (Bm.filter (fun p => p.position_id ≠ "")) k = some b := hb
      exact H2 b (List.mem_of_mem_filter (dictLast_mem _ _ _ _ hb2))
    rcases hS : mrGet (S.filter (fun r => r.position_id ≠ "")) k with _ | r
    · have hX1 : mrGet (mergeWithExistingCsv Bm Bo S).1 k =
          mrGet (Bm.filter (fun p => p.position_id ≠ "")) k := by
        simp only [merge_fst_get, hS]
      have hY1 : oeGet (mergeWithExistingCsv Bm Bo S).2 k =
          oeGet (Bo.filter (fun e => e.position_id ≠ "")) k := by
        simp only [merge_snd_get, hS]
      rcases hX : mrGet (Bm.filter (fun p => p.position_id ≠ "")) k with _ | b
      · rcases hY : oeGet (Bo.filter (fun e => e.position_id ≠ "")) k with _ | e
        · have hS2v : mrGet (((mergeWithExistingCsv Bm Bo S).1 ++
                ((mergeWithExistingCsv Bm Bo S).2).map openRowOf).filter
                  (fun r => r.position_id ≠ "")) k = none := by
            rw [hS2, hX1, hX, hY1, hY]
            rfl
          constructor
          · simp only [merge_fst_get, hS, hS2v, hX]
          · simp only [merge_snd_get, hS, hS2v, hY]
        · have hS2v : mrGet (((mergeWithExistingCsv Bm Bo S).1 ++
                ((mergeWithExistingCsv Bm Bo S).2).map openRowOf).filter
                  (fun r => r.position_id ≠ "")) k = some (openRowOf e) := by
            rw [hS2, hX1, hX, hY1, hY]
            rfl
          constructor
          · simp only [merge_fst_get, hS, hS2v, hX, hY, mergeRow_openRow_some,
              leftPart]
          · simp only [merge_snd_get, hS, hS2v, hX, hY, mergeRow_openRow_some,
              rightPart]
      · have hY : oeGet (Bo.filter (fun e => e.position_id ≠ "")) k = none := by
          rcases hdisjk with h1 | h1
          · rw [hX] at h1
            exact Option.noConfusion h1
          · exact h1
        have hself : mergeRow (some b) none b = Sum.inl b :=
          mergeRow_self b (H2k b hX)
        have hS2v : mrGet (((mergeWithExistingCsv Bm Bo S).1 ++
              ((mergeWithExistingCsv Bm Bo S).2).map openRowOf).filter
                (fun r => r.position_id ≠ "")) k = some b := by
          rw [hS2, hX1, hX, hY1, hY]
          rfl
        constructor
        · simp only [merge_fst_get, hS, hS2v, hX, hY, hself, leftPart]
        · simp only [merge_snd_get, hS, hS2v, hX, hY, hself, rightPart]
    · have hS3 : dictLast (fun p : MatchedPosition => p.position_id)
          (S.filter (fun r => r.position_id ≠ "")) k = some r := hS
      have hrS : r ∈ S := List.mem_of_mem_filter (dictLast_mem _ _ _ _ hS3)
      rcases hd : mergeRow (mrGet (Bm.filter (fun p => p.position_id ≠ "")) k)
          (oeGet (Bo.filter (fun e => e.position_id ≠ "")) k) r with r2 | e2
      · have hX1 : mrGet (mergeWithExistingCsv Bm Bo S).1 k = some r2 := by
          simp only [merge_fst_get, hS, hd, leftPart]
        have hY1 : oeGet (mergeWithExistingCsv Bm Bo S).2 k = none := by
          simp only [merge_snd_get, hS, hd, rightPart]
        have hS2v : mrGet (((mergeWithExistingCsv Bm Bo S).1 ++
              ((mergeWithExistingCsv Bm Bo S).2).map openRowOf).filter
                (fun r => r.position_id ≠ "")) k = some r2 := by
          rw [hS2, hX1, hY1]
          rfl
        have hfix := mergeRow_fix_inl _ _ r r2 hdisjk H2k hd
        constructor
        · simp only [merge_fst_get, hS, hS2v, hd, hfix, leftPart]
        · simp only [merge_snd_get, hS, hS2v, hd, hfix, rightPart]
      · have hX1 : mrGet (mergeWithExistingCsv Bm Bo S).1 k = none := by
          simp only [merge_fst_get, hS, hd, leftPart]
        have hY1 : oeGet (mergeWithExistingCsv Bm Bo S).2 k = some e2 := by
          simp only [merge_snd_get, hS, hd, rightPart]
        have hS2v : mrGet (((mergeWithExistingCsv Bm Bo S).1 ++
              ((mergeWithExistingCsv Bm Bo S).2).map openRowOf).filter
                (fun r => r.position_id ≠ "")) k = some (openRowOf e2) := by
          rw [hS2, hX1, hY1]
          rfl
        have hfix := mergeRow_fix_inr _ _ r e2 (fun hso => H3 r hrS hso) hd
        constructor
        · simp only [merge_fst_get, hS, hS2v, hd, hfix, leftPart]
        · simp only [merge_snd_get, hS, hS2v, hd, hfix, rightPart]

/-- C5 (witness): the amended idempotence theorem at a concrete
non-overlapping instance: persisted `[discordRow]`, batch `[pendingNew]`
with no still-open events, looked up at the shared id. -/
theorem merge_idempotent_witness :
    mrGet (mergeWithExistingCsv [pendingNew] []
        ((mergeWithExistingCsv [pendingNew] [] [discordRow]).1 ++
          ((mergeWithExistingCsv [pendingNew] [] [discordRow]).2).map openRowOf)).1 "AB12" =
      mrGet (mergeWithExistingCsv [pendingNew] [] [discordRow]).1 "AB12" ∧
    oeGet (mergeWithExistingCsv [pendingNew] []
        ((mergeWithExistingCsv [pendingNew] [] [discordRow]).1 ++
          ((mergeWithExistingCsv [pendingNew] [] [discordRow]).2).map openRowOf)).2 "AB12" =
      oeGet (mergeWithExistingCsv [pendingNew] [] [discordRow]).2 "AB12" :=
  merge_idempotent [pendingNew] [] [discordRow] (by decide) (by decide)
    (by decide) "AB12"

end Valhalla
